import Mathlib

/-! The HTTP gateway of `query` (`http/api.go`).

A shallow embedding of the forwarding handlers (`postByJson`, `getRequest`,
`postByForm`), of the route table (`configApiRoutes`) and of the inventory
join (`getAgentAliveData`), followed by the properties proved about them.

Go strings and byte slices are lists of bytes.  The collaborators the handlers
call but which live outside the file (the HTTP client, the URL syntax check of
`http.NewRequest`, the relational store, the JSON decoder) are fields of a
`World` record, so that every statement below holds for each behaviour they
can have.
-/

namespace Query

/-! ## Bytes and strings -/

/-- One byte. -/
abbrev Byte := Fin 256

/-- A Go `string` (equally a `[]byte`): a finite sequence of bytes. -/
abbrev GoString := List Byte

/-- The bytes of a string literal of the source (Go source text is UTF-8). -/
def utf8 (s : String) : GoString :=
  (s.data.flatMap String.utf8EncodeChar).map (fun b => b.val)

/-- Go `strings.HasPrefix`. -/
def HasPrefix : GoString → GoString → Bool
  | _, [] => true
  | [], _ :: _ => false
  | a :: s, b :: p => a == b && HasPrefix s p

/-- The search loop of `strings.Index`: the first offset (counted from `i`) at
which `substr` starts in `s`, or `-1`. -/
def indexFrom (i : Nat) : GoString → GoString → Int
  | [], substr => if substr.isEmpty then (i : Int) else -1
  | c :: rest, substr =>
    if HasPrefix (c :: rest) substr then (i : Int) else indexFrom (i + 1) rest substr

/-- Go `strings.Index`. -/
def Index (s substr : GoString) : Int := indexFrom 0 s substr

/-- Go `strings.Contains`: `Index(s, substr) >= 0`. -/
def Contains (s substr : GoString) : Bool := decide (Index s substr ≥ 0)

/-! ## Slices and maps -/

/-- A Go slice value: `none` is the `nil` slice, `some l` a non-nil slice. -/
abbrev Slice (α : Type) := Option (List α)

/-- Go `append(s, x)`: the result is never `nil`. -/
def Slice.append {α : Type} (s : Slice α) (x : α) : Slice α :=
  match s with
  | none => some [x]
  | some l => some (l ++ [x])

/-- The elements of a slice (`nil` has none). -/
def Slice.toList {α : Type} (s : Slice α) : List α :=
  match s with
  | none => []
  | some l => l

/-- A Go `map[string]string`, as an association list. -/
abbrev StringMap := List (GoString × GoString)

/-- The assignment `m[k] = v`. -/
def StringMap.set (m : StringMap) (k v : GoString) : StringMap :=
  (k, v) :: m.filter (fun p => p.1 != k)

/-- The lookup `m[k]` with its presence flag. -/
def StringMap.get (m : StringMap) (k : GoString) : Option GoString :=
  (m.find? (fun p => p.1 == k)).map (fun p => p.2)

/-! ## `bytes.Buffer` -/

/-- Go `bytes.Buffer`: the bytes held and the read offset. -/
structure Buffer where
  buf : List Byte
  off : Nat
  deriving DecidableEq, Repr

/-- The zero buffer, `new(bytes.Buffer)`. -/
def Buffer.new : Buffer := { buf := [], off := 0 }

/-- Go `bytes.NewBuffer(b)`: a buffer whose unread content is `b`. -/
def NewBuffer (b : List Byte) : Buffer := { buf := b, off := 0 }

/-- The unread content of a buffer. -/
def Buffer.unread (b : Buffer) : List Byte := b.buf.drop b.off

/-- Go `buf.ReadFrom(r)`: append everything the reader `r` yields (`data`). -/
def Buffer.ReadFrom (b : Buffer) (data : List Byte) : Buffer :=
  { b with buf := b.buf ++ data }

/-- Go `buf.String()`: the unread content as a string. -/
def Buffer.String (b : Buffer) : GoString := b.unread

/-- The conversion `[]byte(s)`. -/
def toBytes (s : GoString) : List Byte := s

/-! ## The HTTP data model -/

/-- Go `http.Header`, keys in canonical form. -/
abbrev Header := List (GoString × List GoString)

/-- Go `Header.Set`: the key gets exactly the one value. -/
def Header.Set (h : Header) (k v : GoString) : Header :=
  (k, [v]) :: h.filter (fun p => p.1 != k)

/-- Go `Header.Get`: the first value of the key, or the empty string. -/
def Header.Get (h : Header) (k : GoString) : GoString :=
  match h.find? (fun p => p.1 == k) with
  | some (_, v :: _) => v
  | _ => []

/-- The fields of `url.URL` that `RequestURI` reads; `EscapedPath` is the value
of the method of that name. -/
structure URL where
  Scheme : GoString
  Opaque : GoString
  EscapedPath : GoString
  ForceQuery : Bool
  RawQuery : GoString
  deriving DecidableEq, Repr

/-- Go `(*url.URL).RequestURI`: the encoded `path?query` (or `opaque?query`). -/
def URL.RequestURI (u : URL) : GoString :=
  let result :=
    if u.Opaque = [] then
      (if u.EscapedPath = [] then utf8 "/" else u.EscapedPath)
    else
      (if HasPrefix u.Opaque (utf8 "//") then u.Scheme ++ utf8 ":" ++ u.Opaque else u.Opaque)
  if u.ForceQuery || u.RawQuery != [] then result ++ utf8 "?" ++ u.RawQuery else result

/-- The inbound request as a handler sees it.  `Path` is `URL.Path`, the key of
the route lookup; `MediaType` is what `mime.ParseMediaType` makes of the
`Content-Type` header; `Body` is the byte sequence the body reader yields. -/
structure Request where
  Method : GoString
  Path : GoString
  URL : URL
  MediaType : GoString
  Body : List Byte
  deriving DecidableEq, Repr

/-- The outbound request handed to the HTTP client.  `Body = none` is the `nil`
body of a GET. -/
structure OutRequest where
  Method : GoString
  URL : GoString
  Header : Header
  Body : Option (List Byte)
  deriving DecidableEq, Repr

/-- The response of a backend; `Body` is the byte sequence
`ioutil.ReadAll(resp.Body)` returns. -/
structure Response where
  StatusCode : Nat
  Header : Header
  Body : List Byte
  deriving DecidableEq, Repr

/-- The two results of `client.Do`: the response pointer (`none` is `nil`) and
the error. -/
structure DoResult where
  resp : Option Response
  err : Option GoString
  deriving DecidableEq, Repr

/-- The state of the `http.ResponseWriter` of the inbound request: the header
map, the status line once written, the body written so far. -/
structure ResponseWriter where
  Header : Header
  Status : Option Nat
  Body : List Byte
  deriving DecidableEq, Repr

/-- The writer a handler receives: nothing set, nothing written. -/
def ResponseWriter.fresh : ResponseWriter := { Header := [], Status := none, Body := [] }

/-- Assignment through `rw.Header().Set(k, v)`. -/
def ResponseWriter.SetHeader (rw : ResponseWriter) (k v : GoString) : ResponseWriter :=
  { rw with Header := rw.Header.Set k v }

/-- Go `rw.WriteHeader(code)`: the first call fixes the status. -/
def ResponseWriter.WriteHeader (rw : ResponseWriter) (code : Nat) : ResponseWriter :=
  match rw.Status with
  | none => { rw with Status := some code }
  | some _ => rw

/-- Go `rw.Write(b)`: if `WriteHeader` has not been called, it is called with
`http.StatusOK` first; then the bytes are appended to the body. -/
def ResponseWriter.Write (rw : ResponseWriter) (b : List Byte) : ResponseWriter :=
  let rw1 := rw.WriteHeader 200
  { rw1 with Body := rw1.Body ++ b }

/-- Modelled from the spec: the result record `cmodel.GraphLastResp` of the
time-series service, declared outside this file; the value is kept as the raw
JSON text. -/
structure GraphLastResp where
  Endpoint : GoString
  Counter : GoString
  Value : GoString
  deriving DecidableEq, Repr

/-- The collaborators outside the file.
* `parseErr u`: the error of `url.Parse` on `u` inside `http.NewRequest`, if any;
* `Do`: `(*http.Client).Do`;
* `jsonQuote`: the string encoder of `encoding/json`;
* `Unmarshal`: `json.Unmarshal` into a `[]GraphLastResp`, the decoded records and the error. -/
structure World where
  parseErr : GoString → Option GoString
  Do : OutRequest → DoResult
  jsonQuote : GoString → GoString
  Unmarshal : List Byte → List GraphLastResp × Option GoString

/-- Go `http.NewRequest(method, url, body)` for the two methods used here: the
url is parsed, and on a parse error the request is `nil`. -/
def NewRequest (w : World) (method url : GoString) (body : Option Buffer) :
    Option OutRequest × Option GoString :=
  match w.parseErr url with
  | some e => (none, some e)
  | none => (some { Method := method, URL := url, Header := [], Body := body.map Buffer.unread }, none)

/-- The configuration `g.Config().Api`: the two base URLs. -/
structure ApiConfig where
  Query : GoString
  Dashboard : GoString
  deriving DecidableEq, Repr

/-- What running a handler leaves behind: the request handed to the HTTP client
(if one was), the response writer, the lines logged, and whether the handler
stopped in a run-time panic. -/
structure Outcome where
  sent : Option OutRequest
  rw : ResponseWriter
  log : List GoString
  panicked : Bool
  deriving DecidableEq, Repr

/-- The log line `log.Println("Error =", msg)`. -/
def errorLine (msg : GoString) : GoString := utf8 "Error = " ++ msg

/-- The lines logged for an optional error. -/
def logErr (e : Option GoString) : List GoString :=
  match e with
  | some m => [errorLine m]
  | none => []

/-! ## The forwarders -/

/-- Source `postByJson`.  A `nil` request makes `reqPost.Header` panic, a `nil`
response makes `resp.Body` (evaluated by the `defer` statement) panic. -/
def postByJson (w : World) (rw : ResponseWriter) (req : Request) (url : GoString) : Outcome :=
  let buf := Buffer.new.ReadFrom req.Body
  let s := buf.String
  let (reqPost, err) := NewRequest w (utf8 "POST") url (some (NewBuffer (toBytes s)))
  let log := logErr err
  match reqPost with
  | none => { sent := none, rw := rw, log := log, panicked := true }
  | some reqPost =>
    let reqPost := { reqPost with
      Header := reqPost.Header.Set (utf8 "Content-Type") (utf8 "application/json") }
    let r := w.Do reqPost
    let log := log ++ logErr r.err
    match r.resp with
    | none => { sent := some reqPost, rw := rw, log := log, panicked := true }
    | some resp =>
      let body := resp.Body
      let rw := rw.SetHeader (utf8 "Content-Type") (utf8 "application/json; charset=UTF-8")
      { sent := some reqPost, rw := rw.Write body, log := log, panicked := false }

/-- Source `queryInfo`. -/
def queryInfo (w : World) (cfg : ApiConfig) (rw : ResponseWriter) (req : Request) : Outcome :=
  let url := cfg.Query ++ utf8 "/graph/info"
  postByJson w rw req url

/-- Source `queryHistory`. -/
def queryHistory (w : World) (cfg : ApiConfig) (rw : ResponseWriter) (req : Request) : Outcome :=
  let url := cfg.Query ++ utf8 "/graph/history"
  postByJson w rw req url

/-- Source `getRequest`.  When `NewRequest` fails `req` is `nil`, and
`client.Do(req)` panics on reading a field of the `nil` request; a `nil`
response makes `resp.Body` panic. -/
def getRequest (w : World) (rw : ResponseWriter) (url : GoString) : Outcome :=
  let (req, err) := NewRequest w (utf8 "GET") url none
  let log := logErr err
  match req with
  | none => { sent := none, rw := rw, log := log, panicked := true }
  | some req =>
    let r := w.Do req
    let log := log ++ logErr r.err
    match r.resp with
    | none => { sent := some req, rw := rw, log := log, panicked := true }
    | some resp =>
      let body := resp.Body
      let rw := rw.SetHeader (utf8 "Content-Type") (utf8 "application/json; charset=UTF-8")
      { sent := some req, rw := rw.Write body, log := log, panicked := false }

/-- Source `dashboardEndpoints`. -/
def dashboardEndpoints (w : World) (cfg : ApiConfig) (rw : ResponseWriter) (req : Request) :
    Outcome :=
  let url := cfg.Dashboard ++ req.URL.RequestURI
  getRequest w rw url

/-! ## Package `net/url`: query escaping, `ParseQuery`, `Values.Encode`

`postByForm` is `req.ParseForm()` followed by `client.PostForm`, both of the Go
standard library.  The definitions of this section follow the library as it
stood when the source was written (Go 1.5): `ParseQuery` separates pairs at
`&` and at `;`.
-/

/-- The unreserved alphanumerics of `shouldEscape`. -/
def isAlnum (c : Byte) : Bool :=
  (65 ≤ c.val && c.val ≤ 90) || (97 ≤ c.val && c.val ≤ 122) || (48 ≤ c.val && c.val ≤ 57)

/-- Go `shouldEscape(c, encodeQueryComponent)`: only the alphanumerics and the
marks `-`, `_`, `.`, `~` stay as they are. -/
def shouldEscape (c : Byte) : Bool :=
  if isAlnum c then false
  else if c = 45 ∨ c = 95 ∨ c = 46 ∨ c = 126 then false
  else true

/-- The indexing `"0123456789ABCDEF"[n]`. -/
def upperhex (n : Nat) : Byte :=
  if n < 10 then Fin.ofNat (48 + n) else Fin.ofNat (55 + n)

/-- What `escape` writes for one byte in mode `encodeQueryComponent`. -/
def escapeByte (c : Byte) : GoString :=
  if c = 32 then [43]
  else if shouldEscape c then [37, upperhex (c.val >>> 4), upperhex (c.val &&& 15)]
  else [c]

/-- Go `url.QueryEscape`. -/
def QueryEscape (s : GoString) : GoString := s.flatMap escapeByte

/-- Go `ishex`. -/
def ishex (c : Byte) : Bool :=
  (48 ≤ c.val && c.val ≤ 57) || (97 ≤ c.val && c.val ≤ 102) || (65 ≤ c.val && c.val ≤ 70)

/-- Go `unhex`. -/
def unhex (c : Byte) : Nat :=
  if 48 ≤ c.val ∧ c.val ≤ 57 then c.val - 48
  else if 97 ≤ c.val ∧ c.val ≤ 102 then c.val - 97 + 10
  else if 65 ≤ c.val ∧ c.val ≤ 70 then c.val - 65 + 10
  else 0

/-- Go `url.QueryUnescape` (`unescape` in mode `encodeQueryComponent`): `none`
is the `EscapeError` raised when a `%` is not followed by two hex digits
anywhere in the string; otherwise `%XX` becomes the byte and `+` a space. -/
def QueryUnescape : GoString → Option GoString
  | [] => some []
  | c :: rest =>
    if c = 37 then
      match rest with
      | a :: b :: rest2 =>
        if ishex a && ishex b then
          (QueryUnescape rest2).map (fun t => Fin.ofNat ((unhex a <<< 4) ||| unhex b) :: t)
        else none
      | _ => none
    else if c = 43 then (QueryUnescape rest).map (fun t => (32 : Byte) :: t)
    else (QueryUnescape rest).map (fun t => c :: t)

/-- Go `url.Values`, a `map[string][]string`, as an association list. -/
abbrev Values := List (GoString × List GoString)

/-- The value list `m[k]` (`nil` when the key is absent). -/
def Values.get (m : Values) (k : GoString) : List GoString :=
  match m with
  | [] => []
  | (k1, vs) :: rest => if k1 = k then vs else Values.get rest k

/-- The update `m[k] = append(m[k], v)`. -/
def Values.add (m : Values) (k v : GoString) : Values :=
  match m with
  | [] => [(k, [v])]
  | (k1, vs) :: rest => if k1 = k then (k1, vs ++ [v]) :: rest else (k1, vs) :: Values.add rest k v

/-- The split `key[:i], key[i+1:]` at the first byte satisfying `p`
(`strings.IndexAny` / `strings.Index` with one-byte separators); the second
component is `none` when no byte satisfies `p`. -/
def cutAt (p : Byte → Bool) : GoString → GoString × Option GoString
  | [] => ([], none)
  | c :: rest =>
    if p c then ([], some rest)
    else ((c :: (cutAt p rest).1), (cutAt p rest).2)

/-- The separators of `parseQuery`: `&` and `;`. -/
def isQuerySep (c : Byte) : Bool := c = 38 || c = 59

/-- The body of the loop of `parseQuery` for one segment `key`: an empty
segment is skipped; the segment is cut at the first `=`; a key or value that
does not unescape is skipped and makes the error non-nil.  The second
component of the state is `err != nil`. -/
def parseSegment (st : Values × Bool) (key : GoString) : Values × Bool :=
  if key = [] then st
  else
    let (key, value) := match cutAt (fun c => c = 61) key with
      | (k, some v) => (k, v)
      | (k, none) => (k, [])
    match QueryUnescape key with
    | none => (st.1, true)
    | some key1 =>
      match QueryUnescape value with
      | none => (st.1, true)
      | some value1 => (Values.add st.1 key1 value1, st.2)

/-- The loop `for query != ""` of Go `parseQuery`; `fuel` bounds the number of
iterations, and `query.length` iterations always suffice since each one
removes at least one byte. -/
def parseQueryLoop : Nat → Values × Bool → GoString → Values × Bool
  | 0, st, _ => st
  | fuel + 1, st, query =>
    if query = [] then st
    else
      match cutAt isQuerySep query with
      | (key, some rest) => parseQueryLoop fuel (parseSegment st key) rest
      | (key, none) => parseSegment st key

/-- Go `url.ParseQuery`: the values parsed, and whether an error is returned
with them. -/
def ParseQuery (query : GoString) : Values × Bool :=
  parseQueryLoop query.length ([], false) query

/-- Go `sort.Strings` compares strings bytewise. -/
def strLe : GoString → GoString → Bool
  | [], _ => true
  | _ :: _, [] => false
  | a :: s, b :: t => decide (a < b) || (a == b && strLe s t)

/-- Insertion into a sorted list of strings. -/
def insertKey (k : GoString) : List GoString → List GoString
  | [] => [k]
  | x :: xs => if strLe k x then k :: x :: xs else x :: insertKey k xs

/-- Go `sort.Strings`. -/
def sortStrings (l : List GoString) : List GoString := l.foldr insertKey []

/-- The writes of `Values.Encode` for the pairs in order: `&` goes first when
the buffer is not empty, then `QueryEscape(k) + "="`, then `QueryEscape(v)`. -/
def encodeLoop (buf : GoString) : List (GoString × GoString) → GoString
  | [] => buf
  | (k, v) :: rest =>
    let buf1 := if buf.length > 0 then buf ++ [38] else buf
    encodeLoop (buf1 ++ (QueryEscape k ++ [61]) ++ QueryEscape v) rest

/-- Go `Values.Encode`: the keys sorted, and for each key its values in order. -/
def Values.Encode (v : Values) : GoString :=
  let keys := sortStrings (v.map (fun p => p.1))
  encodeLoop [] (keys.flatMap (fun k => (v.get k).map (fun x => (k, x))))

/-- The bound `maxFormSize` of `parsePostForm`: 10 MB. -/
def maxFormSize : Nat := 10485760

/-- Go `parsePostForm` on a request with a body: only the media type
`application/x-www-form-urlencoded` yields values; the body is read through a
reader limited to `maxFormSize + 1` bytes and a longer body is an error that
leaves the values `nil`.  The second component is `err != nil`. -/
def parsePostForm (req : Request) : Option Values × Bool :=
  if req.MediaType = utf8 "application/x-www-form-urlencoded" then
    let b := req.Body.take (maxFormSize + 1)
    if b.length > maxFormSize then (none, true)
    else
      let (vs, e) := ParseQuery b
      (some vs, e)
  else (none, false)

/-- The field `req.PostForm` after Go `req.ParseForm()`: filled from the body
for the methods POST, PUT and PATCH, and an empty map otherwise. -/
def ParseForm (req : Request) : Values :=
  if req.Method = utf8 "POST" ∨ req.Method = utf8 "PUT" ∨ req.Method = utf8 "PATCH" then
    match (parsePostForm req).1 with
    | some vs => vs
    | none => []
  else []

/-- Go `client.PostForm(url, data)`: a POST of `data.Encode()` with the form
content type; when the request cannot be built the response is `nil`. -/
def PostForm (w : World) (url : GoString) (data : Values) : Option OutRequest × DoResult :=
  match NewRequest w (utf8 "POST") url (some (NewBuffer data.Encode)) with
  | (some req, _) =>
    let req := { req with
      Header := req.Header.Set (utf8 "Content-Type") (utf8 "application/x-www-form-urlencoded") }
    (some req, w.Do req)
  | (none, err) => (none, { resp := none, err := err })

/-- Source `postByForm`.  A `nil` response makes `resp.Body` panic. -/
def postByForm (w : World) (rw : ResponseWriter) (req : Request) (url : GoString) : Outcome :=
  let postForm := ParseForm req
  let (sent, r) := PostForm w url postForm
  let log := logErr r.err
  match r.resp with
  | none => { sent := sent, rw := rw, log := log, panicked := true }
  | some resp =>
    let body := resp.Body
    let rw := rw.SetHeader (utf8 "Content-Type") (utf8 "application/json; charset=UTF-8")
    { sent := sent, rw := rw.Write body, log := log, panicked := false }

/-- Source `dashboardCounters`. -/
def dashboardCounters (w : World) (cfg : ApiConfig) (rw : ResponseWriter) (req : Request) :
    Outcome :=
  let url := cfg.Dashboard ++ utf8 "/api/counters"
  postByForm w rw req url

/-- Source `dashboardChart`. -/
def dashboardChart (w : World) (cfg : ApiConfig) (rw : ResponseWriter) (req : Request) :
    Outcome :=
  let url := cfg.Dashboard ++ utf8 "/chart"
  postByForm w rw req url

/-! ## The route table -/

/-- Source `configApiRoutes`: the patterns registered and their handlers. -/
def configApiRoutes (w : World) (cfg : ApiConfig) :
    List (GoString × (ResponseWriter → Request → Outcome)) :=
  [ (utf8 "/api/info", queryInfo w cfg),
    (utf8 "/api/history", queryHistory w cfg),
    (utf8 "/api/endpoints", dashboardEndpoints w cfg),
    (utf8 "/api/counters", dashboardCounters w cfg),
    (utf8 "/api/chart", dashboardChart w cfg) ]

/-- The dispatch of the default `ServeMux` for these patterns, none of which
ends in a slash: the handler whose pattern equals the path is run (`none`:
no pattern matches). -/
def serve (w : World) (cfg : ApiConfig) (rw : ResponseWriter) (req : Request) : Option Outcome :=
  match (configApiRoutes w cfg).find? (fun r => r.1 == req.Path) with
  | some r => some (r.2 rw req)
  | none => none

/-! ## The inventory join -/

/-- Modelled from the spec: the record type `Host` of the `host` table, declared
elsewhere in package `http`: "hostname (string), agent_version (string)". -/
structure Host where
  Hostname : GoString
  Agent_version : GoString
  deriving DecidableEq, Repr

/-- Modelled from the spec: the parameter record `cmodel.GraphLastParam` of the
time-series "last value" endpoint, declared outside this file: "`{endpoint, counter}`". -/
structure GraphLastParam where
  Endpoint : GoString
  Counter : GoString
  deriving DecidableEq, Repr

/-- The shared result map, as far as this file touches it: the error messages
recorded in it, oldest first. -/
structure ResultMap where
  errors : List GoString
  deriving DecidableEq, Repr

/-- Modelled from the spec: `setError`, declared elsewhere in package `http`,
by which an error "is recorded into a shared result/error structure". -/
def setError (msg : GoString) (result : ResultMap) : ResultMap :=
  { result with errors := result.errors ++ [msg] }

/-- The call of `setError` guarded by `if err != nil`. -/
def setErrorIf (e : Option GoString) (result : ResultMap) : ResultMap :=
  match e with
  | some m => setError m result
  | none => result

/-- The two results that matter of `o.Raw(...).QueryRows(&hosts)`: the rows
stored into `hosts` and the error. -/
structure QueryRowsResult where
  hosts : List Host
  err : Option GoString
  deriving DecidableEq, Repr

/-- The variables the `range hosts` loop of `getAgentAliveData` updates. -/
structure LoopState where
  hostnames : Slice GoString
  versions : StringMap
  queries : Slice GraphLastParam
  deriving DecidableEq, Repr

/-- One iteration of the `range hosts` loop of `getAgentAliveData`. -/
def loopBody (st : LoopState) (host : Host) : LoopState :=
  if !Contains host.Hostname (utf8 ".") && Contains host.Hostname (utf8 "-") then
    let query : GraphLastParam := { Endpoint := host.Hostname, Counter := utf8 "agent.alive" }
    { hostnames := st.hostnames.append host.Hostname,
      versions := st.versions.set host.Hostname host.Agent_version,
      queries := st.queries.append query }
  else st

/-- The JSON text of one `GraphLastParam` (field tags `endpoint`, `counter`). -/
def marshalParam (w : World) (q : GraphLastParam) : GoString :=
  utf8 "\x7b\"endpoint\":" ++ w.jsonQuote q.Endpoint ++ utf8 ",\"counter\":" ++
    w.jsonQuote q.Counter ++ utf8 "\x7d"

/-- The elements of a JSON array, comma separated. -/
def joinComma : List GoString → GoString
  | [] => []
  | [x] => x
  | x :: y :: rest => x ++ utf8 "," ++ joinComma (y :: rest)

/-- Go `json.Marshal` on a `[]GraphLastParam`: a `nil` slice encodes as `null`,
any other slice as an array; no value of this type makes it fail. -/
def Marshal (w : World) (queries : Slice GraphLastParam) : List Byte × Option GoString :=
  match queries with
  | none => (utf8 "null", none)
  | some l => (utf8 "[" ++ joinComma (l.map (marshalParam w)) ++ utf8 "]", none)

/-- What a run of `getAgentAliveData` leaves behind: the final values of its
local slices, the two maps it was handed, the request handed to the HTTP
client, and the list returned (`none` when the run ends in a panic). -/
structure AliveOutcome where
  hostnames : Slice GoString
  queries : Slice GraphLastParam
  versions : StringMap
  result : ResultMap
  sent : Option OutRequest
  ret : Option (List GraphLastResp)
  deriving DecidableEq, Repr

/-- Source `getAgentAliveData`; `store` is what the `QueryRows` call yields. -/
def getAgentAliveData (w : World) (cfg : ApiConfig) (store : QueryRowsResult)
    (hostnames : Slice GoString) (versions : StringMap) (result : ResultMap) : AliveOutcome :=
  let st0 : LoopState := { hostnames := hostnames, versions := versions, queries := none }
  let (st, result) :=
    match store.err with
    | some e => (st0, setError e result)
    | none => (store.hosts.foldl loopBody st0, result)
  let (s, err) := Marshal w st.queries
  let result := setErrorIf err result
  let url := cfg.Query ++ utf8 "/graph/last"
  let (reqPost, err) := NewRequest w (utf8 "POST") url (some (NewBuffer (toBytes s)))
  let result := setErrorIf err result
  match reqPost with
  | none =>
    { hostnames := st.hostnames, queries := st.queries, versions := st.versions,
      result := result, sent := none, ret := none }
  | some reqPost =>
    let reqPost := { reqPost with
      Header := reqPost.Header.Set (utf8 "Content-Type") (utf8 "application/json") }
    let r := w.Do reqPost
    let result := setErrorIf r.err result
    match r.resp with
    | none =>
      { hostnames := st.hostnames, queries := st.queries, versions := st.versions,
        result := result, sent := some reqPost, ret := none }
    | some resp =>
      let body := resp.Body
      let (data, err) := w.Unmarshal body
      let result := setErrorIf err result
      { hostnames := st.hostnames, queries := st.queries, versions := st.versions,
        result := result, sent := some reqPost, ret := some data }

/-! ## Specification-side definitions -/

/-- The filter in the words of the specification: the hostname contains a
hyphen (byte 45) and contains no dot (byte 46). -/
def kept (h : Host) : Bool := decide ((45 : Byte) ∈ h.Hostname) && !decide ((46 : Byte) ∈ h.Hostname)

/-- The query of the specification for a host: endpoint the hostname, counter
`agent.alive`. -/
def queryOf (h : Host) : GraphLastParam := { Endpoint := h.Hostname, Counter := utf8 "agent.alive" }

/-- The loop state with which `getAgentAliveData` reaches `json.Marshal`. -/
def loopResult (store : QueryRowsResult) (hostnames : Slice GoString) (versions : StringMap) :
    LoopState :=
  match store.err with
  | some _ => { hostnames := hostnames, versions := versions, queries := none }
  | none => store.hosts.foldl loopBody { hostnames := hostnames, versions := versions, queries := none }

/-- A JSON array text: it opens with `[` and closes with `]`. -/
def isJsonArray (b : List Byte) : Bool := b.head? == some 91 && b.getLast? == some 93

/-- The text `Values.Encode` writes for one key and value. -/
def encodePair (p : GoString × GoString) : GoString :=
  QueryEscape p.1 ++ [61] ++ QueryEscape p.2

/-- The text of `Values.Encode` for a list of pairs: the pairs joined by `&`. -/
def joinPairs : List (GoString × GoString) → GoString
  | [] => []
  | p :: rest => encodePair p ++ rest.flatMap (fun q => 38 :: encodePair q)

/-- The tail the three forwarders have in common, from `defer resp.Body.Close()`
on, as one function: evaluating `resp.Body` with `resp == nil` panics;
otherwise the body is read, the content type is set and the body is written. -/
def relay (rw : ResponseWriter) (sent : Option OutRequest) (log : List GoString)
    (r : DoResult) : Outcome :=
  let log1 := log ++ logErr r.err
  match r.resp with
  | none => { sent := sent, rw := rw, log := log1, panicked := true }
  | some resp =>
    let body := resp.Body
    let rw1 := rw.SetHeader (utf8 "Content-Type") (utf8 "application/json; charset=UTF-8")
    { sent := sent, rw := rw1.Write body, log := log1, panicked := false }

/-! ## Sample collaborators and inputs -/

/-- A world in which every URL parses, the backend answers `404` with the
body `[]` and a `text/html` content type, and the decoder finds no record. -/
def sampleWorld : World :=
  { parseErr := fun _ => none,
    Do := fun _ => { resp := some { StatusCode := 404,
                                    Header := [(utf8 "Content-Type", [utf8 "text/html"])],
                                    Body := utf8 "[]" },
                     err := none },
    jsonQuote := fun s => utf8 "\"" ++ s ++ utf8 "\"",
    Unmarshal := fun _ => ([], none) }

/-- A world in which every URL parses and the network call fails: `client.Do`
returns no response and the error `connection refused`. -/
def downWorld : World :=
  { sampleWorld with Do := fun _ => { resp := none, err := some (utf8 "connection refused") } }

/-- A world in which `url.Parse` rejects every URL. -/
def badUrlWorld : World :=
  { sampleWorld with parseErr := fun _ => some (utf8 "missing protocol scheme") }

/-- A configuration. -/
def sampleConfig : ApiConfig :=
  { Query := utf8 "http://query:9966", Dashboard := utf8 "http://dash:8081" }

/-- Three rows of the host table. -/
def sampleHosts : List Host :=
  [ { Hostname := utf8 "web-01", Agent_version := utf8 "5.1.0" },
    { Hostname := utf8 "web01.example.com", Agent_version := utf8 "5.1.0" },
    { Hostname := utf8 "web01", Agent_version := utf8 "5.0.0" } ]

/-- A successful store query. -/
def sampleStore : QueryRowsResult := { hosts := sampleHosts, err := none }

/-- A failed store query. -/
def failedStore : QueryRowsResult := { hosts := [], err := some (utf8 "dial tcp: connection refused") }

/-- An inbound `POST /api/info` with the JSON body `{"foo":1}`. -/
def sampleRequest : Request :=
  { Method := utf8 "POST", Path := utf8 "/api/info",
    URL := { Scheme := [], Opaque := [], EscapedPath := utf8 "/api/info", ForceQuery := false,
             RawQuery := [] },
    MediaType := utf8 "application/json", Body := utf8 "\x7b\"foo\":1\x7d" }

/-- An inbound `GET /api/endpoints?q=web&limit=10`. -/
def sampleGet : Request :=
  { Method := utf8 "GET", Path := utf8 "/api/endpoints",
    URL := { Scheme := [], Opaque := [], EscapedPath := utf8 "/api/endpoints", ForceQuery := false,
             RawQuery := utf8 "q=web&limit=10" },
    MediaType := [], Body := [] }

/-- An inbound form-encoded `POST /api/counters` with the body `b=1&a=2`. -/
def sampleForm : Request :=
  { Method := utf8 "POST", Path := utf8 "/api/counters",
    URL := { Scheme := [], Opaque := [], EscapedPath := utf8 "/api/counters", ForceQuery := false,
             RawQuery := [] },
    MediaType := utf8 "application/x-www-form-urlencoded", Body := utf8 "b=1&a=2" }

/-! ## Properties -/

/-! ### Strings -/

theorem utf8_dot : utf8 "." = [46] := by decide

theorem utf8_hyphen : utf8 "-" = [45] := by decide

theorem indexFrom_single_nonneg (b : Byte) (s : GoString) (i : Nat) :
    0 ≤ indexFrom i s [b] ↔ b ∈ s := by
  induction s generalizing i with
  | nil => simp [indexFrom]
  | cons c rest ih =>
    by_cases h : c = b
    · subst h
      simp [indexFrom, HasPrefix]
    · have h2 : ¬ b = c := fun e => h e.symm
      simp [indexFrom, HasPrefix, h, h2, ih]

/-- For a one-byte `x`, `strings.Contains(s, x)` is membership of that byte. -/
theorem Contains_single (b : Byte) (s : GoString) : Contains s [b] = true ↔ b ∈ s := by
  simp [Contains, Index, indexFrom_single_nonneg]

/-- The test of the loop of `getAgentAliveData`, on the bytes of the hostname. -/
theorem loopBody_test (n : GoString) :
    (!Contains n (utf8 ".") && Contains n (utf8 "-")) = true ↔ ((45 : Byte) ∈ n ∧ (46 : Byte) ∉ n) := by
  rw [utf8_dot, utf8_hyphen]
  have h1 := Contains_single 46 n
  have h2 := Contains_single 45 n
  cases hc : Contains n [46] <;> cases hd : Contains n [45] <;> simp_all

theorem loopBody_kept (st : LoopState) (h : Host) (hk : kept h = true) :
    loopBody st h = { hostnames := st.hostnames.append h.Hostname,
                      versions := st.versions.set h.Hostname h.Agent_version,
                      queries := st.queries.append (queryOf h) } := by
  have : (!Contains h.Hostname (utf8 ".") && Contains h.Hostname (utf8 "-")) = true := by
    rw [loopBody_test]
    simpa [kept] using hk
  simp [loopBody, this, queryOf]

theorem loopBody_dropped (st : LoopState) (h : Host) (hk : kept h = false) :
    loopBody st h = st := by
  have : ¬ ((!Contains h.Hostname (utf8 ".") && Contains h.Hostname (utf8 "-")) = true) := by
    rw [loopBody_test]
    intro hc
    have : kept h = true := by simpa [kept] using hc
    rw [hk] at this
    exact Bool.noConfusion this
  simp only [loopBody]
  rw [if_neg this]

theorem Slice.toList_append {α : Type} (s : Slice α) (x : α) :
    (s.append x).toList = s.toList ++ [x] := by
  cases s <;> simp [Slice.append, Slice.toList]

theorem foldl_loopBody_queries (hosts : List Host) (st : LoopState) :
    (hosts.foldl loopBody st).queries.toList
      = st.queries.toList ++ (hosts.filter kept).map queryOf := by
  induction hosts generalizing st with
  | nil => simp
  | cons h t ih =>
    rw [List.foldl_cons, ih]
    cases hk : kept h
    · rw [loopBody_dropped st h hk]
      simp [List.filter, hk]
    · rw [loopBody_kept st h hk]
      simp [List.filter, hk, Slice.toList_append]

theorem foldl_loopBody_queries_nil (hosts : List Host) (st : LoopState) :
    (hosts.foldl loopBody st).queries = none ↔ (st.queries = none ∧ hosts.filter kept = []) := by
  induction hosts generalizing st with
  | nil => simp
  | cons h t ih =>
    rw [List.foldl_cons, ih]
    cases hk : kept h
    · rw [loopBody_dropped st h hk]
      simp [List.filter, hk]
    · rw [loopBody_kept st h hk]
      cases hq : st.queries <;> simp [List.filter, hk, Slice.append]

/-! ### The inventory join -/

theorem getAgentAliveData_state (w : World) (cfg : ApiConfig) (store : QueryRowsResult)
    (hostnames : Slice GoString) (versions : StringMap) (result : ResultMap) :
    (getAgentAliveData w cfg store hostnames versions result).queries
        = (loopResult store hostnames versions).queries ∧
    (getAgentAliveData w cfg store hostnames versions result).versions
        = (loopResult store hostnames versions).versions ∧
    (getAgentAliveData w cfg store hostnames versions result).hostnames
        = (loopResult store hostnames versions).hostnames := by
  unfold getAgentAliveData loopResult
  cases store.err <;> simp only [] <;> split <;> try split
  all_goals simp

theorem kept_iff (h : Host) :
    kept h = true ↔ ((45 : Byte) ∈ h.Hostname ∧ (46 : Byte) ∉ h.Hostname) := by
  simp [kept]

theorem loopResult_queries_ok (store : QueryRowsResult) (hostnames : Slice GoString)
    (versions : StringMap) (hok : store.err = none) :
    (loopResult store hostnames versions).queries.toList
      = (store.hosts.filter kept).map queryOf := by
  simp only [loopResult, hok]
  rw [foldl_loopBody_queries]
  simp [Slice.toList]

theorem mem_endpoints_iff (hosts : List Host) (h : Host) (hh : h ∈ hosts) :
    h.Hostname ∈ ((hosts.filter kept).map queryOf).map (fun q => q.Endpoint)
      ↔ kept h = true := by
  simp only [List.map_map, List.mem_map, List.mem_filter, Function.comp, queryOf]
  constructor
  · rintro ⟨h1, ⟨_, hk⟩, he⟩
    simpa [kept, ← he] using hk
  · intro hk
    exact ⟨h, ⟨hh, hk⟩, rfl⟩

/-- C1: on the rows of a successful store query, `getAgentAliveData` keeps a
host (its hostname is an endpoint of the batch) if and only if the hostname
contains a hyphen and contains no dot; of `web-01`, `web01.example.com` and
`web01` only `web-01` is kept. -/
theorem getAgentAliveData_keeps_iff (w : World) (cfg : ApiConfig) (hosts : List Host)
    (hostnames : Slice GoString) (versions : StringMap) (result : ResultMap) :
    (∀ h ∈ hosts,
      h.Hostname ∈ ((getAgentAliveData w cfg { hosts := hosts, err := none }
          hostnames versions result).queries.toList.map (fun q => q.Endpoint))
        ↔ ((45 : Byte) ∈ h.Hostname ∧ (46 : Byte) ∉ h.Hostname)) ∧
    (getAgentAliveData w cfg
        { hosts := [ { Hostname := utf8 "web-01", Agent_version := utf8 "5.1.0" },
                     { Hostname := utf8 "web01.example.com", Agent_version := utf8 "5.1.0" },
                     { Hostname := utf8 "web01", Agent_version := utf8 "5.1.0" } ],
          err := none }
        hostnames versions result).queries.toList.map (fun q => q.Endpoint)
      = [utf8 "web-01"] := by
  constructor
  · intro h hh
    rw [(getAgentAliveData_state w cfg _ hostnames versions result).1,
      loopResult_queries_ok _ _ _ rfl, mem_endpoints_iff hosts h hh, kept_iff]
  · rw [(getAgentAliveData_state w cfg _ hostnames versions result).1,
      loopResult_queries_ok _ _ _ rfl]
    decide

/-- C2: after a successful store query the batch is exactly the kept hosts in
the order of the rows, each as the query with `Endpoint` the hostname and
`Counter` the string `agent.alive`: one query per kept host, every counter
`agent.alive`. -/
theorem getAgentAliveData_batch (w : World) (cfg : ApiConfig) (store : QueryRowsResult)
    (hostnames : Slice GoString) (versions : StringMap) (result : ResultMap)
    (hok : store.err = none) :
    (getAgentAliveData w cfg store hostnames versions result).queries.toList
      = (store.hosts.filter kept).map
          (fun h => ({ Endpoint := h.Hostname, Counter := utf8 "agent.alive" } : GraphLastParam)) ∧
    (getAgentAliveData w cfg store hostnames versions result).queries.toList.length
      = (store.hosts.filter kept).length ∧
    (∀ q ∈ (getAgentAliveData w cfg store hostnames versions result).queries.toList,
      q.Counter = utf8 "agent.alive") := by
  rw [(getAgentAliveData_state w cfg store hostnames versions result).1,
    loopResult_queries_ok store hostnames versions hok]
  refine ⟨rfl, by simp, ?_⟩
  intro q hq
  simp only [List.mem_map] at hq
  obtain ⟨h, _, rfl⟩ := hq
  rfl

/-- An instance of C1 on three rows. -/
theorem getAgentAliveData_keeps_iff_witness :
    ∀ h ∈ sampleHosts,
      h.Hostname ∈ ((getAgentAliveData sampleWorld sampleConfig { hosts := sampleHosts, err := none }
          none [] { errors := [] }).queries.toList.map (fun q => q.Endpoint))
        ↔ ((45 : Byte) ∈ h.Hostname ∧ (46 : Byte) ∉ h.Hostname) :=
  (getAgentAliveData_keeps_iff sampleWorld sampleConfig sampleHosts none [] { errors := [] }).1

/-- An instance of C2 on three rows, one of them kept. -/
theorem getAgentAliveData_batch_witness :
    sampleStore.err = none ∧
    (getAgentAliveData sampleWorld sampleConfig sampleStore none [] { errors := [] }).queries.toList
      = [{ Endpoint := utf8 "web-01", Counter := utf8 "agent.alive" }] :=
  ⟨rfl, (getAgentAliveData_batch sampleWorld sampleConfig sampleStore none [] { errors := [] } rfl).1.trans
    (by decide)⟩

/-- The request `getAgentAliveData` builds when the URL parses. -/
theorem getAgentAliveData_unfold (w : World) (cfg : ApiConfig) (store : QueryRowsResult)
    (hostnames : Slice GoString) (versions : StringMap) (result : ResultMap) :
    getAgentAliveData w cfg store hostnames versions result
      = (let st := loopResult store hostnames versions
         let result1 := setErrorIf store.err result
         let result2 := setErrorIf (Marshal w st.queries).2 result1
         match w.parseErr (cfg.Query ++ utf8 "/graph/last") with
         | some e =>
           { hostnames := st.hostnames, queries := st.queries, versions := st.versions,
             result := setError e result2, sent := none, ret := none }
         | none =>
           let reqPost : OutRequest :=
             { Method := utf8 "POST", URL := cfg.Query ++ utf8 "/graph/last",
               Header := Header.Set [] (utf8 "Content-Type") (utf8 "application/json"),
               Body := some (Marshal w st.queries).1 }
           let r := w.Do reqPost
           let result3 := setErrorIf r.err result2
           match r.resp with
           | none =>
             { hostnames := st.hostnames, queries := st.queries, versions := st.versions,
               result := result3, sent := some reqPost, ret := none }
           | some resp =>
             { hostnames := st.hostnames, queries := st.queries, versions := st.versions,
               result := setErrorIf (w.Unmarshal resp.Body).2 result3,
               sent := some reqPost, ret := some (w.Unmarshal resp.Body).1 }) := by
  unfold getAgentAliveData loopResult NewRequest
  cases hp : w.parseErr (cfg.Query ++ utf8 "/graph/last") <;>
    cases store.err <;>
    simp [hp, setErrorIf, NewBuffer, Buffer.unread, toBytes]

theorem getAgentAliveData_sent (w : World) (cfg : ApiConfig) (store : QueryRowsResult)
    (hostnames : Slice GoString) (versions : StringMap) (result : ResultMap) :
    (getAgentAliveData w cfg store hostnames versions result).sent
      = match w.parseErr (cfg.Query ++ utf8 "/graph/last") with
        | some _ => none
        | none => some { Method := utf8 "POST", URL := cfg.Query ++ utf8 "/graph/last",
                         Header := Header.Set [] (utf8 "Content-Type") (utf8 "application/json"),
                         Body := some (Marshal w (loopResult store hostnames versions).queries).1 } := by
  rw [getAgentAliveData_unfold]
  cases w.parseErr (cfg.Query ++ utf8 "/graph/last") with
  | some e => rfl
  | none =>
    simp only []
    split <;> rfl

theorem loopResult_queries_none (store : QueryRowsResult) (hostnames : Slice GoString)
    (versions : StringMap) :
    (loopResult store hostnames versions).queries = none
      ↔ (store.err ≠ none ∨ store.hosts.filter kept = []) := by
  unfold loopResult
  cases he : store.err with
  | some e => simp
  | none => simp [foldl_loopBody_queries_nil]

theorem filter_kept_nil_iff (hosts : List Host) :
    hosts.filter kept = [] ↔ ∀ h ∈ hosts, ¬ ((45 : Byte) ∈ h.Hostname ∧ (46 : Byte) ∉ h.Hostname) := by
  rw [List.filter_eq_nil_iff]
  constructor
  · intro hf h hh hc
    exact hf h hh ((kept_iff h).2 hc)
  · intro hf h hh hk
    exact hf h hh ((kept_iff h).1 hk)

theorem isJsonArray_brackets (m : GoString) : isJsonArray (utf8 "[" ++ m ++ utf8 "]") = true := by
  have h1 : utf8 "[" = [91] := by decide
  have h2 : utf8 "]" = [93] := by decide
  rw [h1, h2]
  have h3 : ([91] ++ m ++ [93] : GoString).getLast? = some 93 := List.getLast?_concat _
  have h4 : ([91] ++ m ++ [93] : GoString).head? = some 91 := by simp
  simp only [isJsonArray, h3, h4]
  decide

theorem Marshal_isJsonArray (w : World) (q : Slice GraphLastParam) :
    isJsonArray (Marshal w q).1 = true ↔ q ≠ none := by
  cases q with
  | none =>
    have : isJsonArray (utf8 "null") = false := by decide
    simp [Marshal, this]
  | some l =>
    simp only [Marshal, isJsonArray_brackets]
    simp

/-- C10: whenever `http.NewRequest` accepts `<query-base>/graph/last`,
`getAgentAliveData` posts a request to it whose body is as follows: if the
store query fails, returns no rows, or returns only hostnames the filter
rejects, the batch is still the `nil` slice and the body is the JSON literal
`null`, not `[]`; and the body is a JSON array exactly when the store query
succeeded and at least one host is kept. -/
theorem getAgentAliveData_posts_null (w : World) (cfg : ApiConfig) (store : QueryRowsResult)
    (hostnames : Slice GoString) (versions : StringMap) (result : ResultMap)
    (hu : w.parseErr (cfg.Query ++ utf8 "/graph/last") = none) :
    ∃ r b, (getAgentAliveData w cfg store hostnames versions result).sent = some r ∧
      r.Method = utf8 "POST" ∧ r.URL = cfg.Query ++ utf8 "/graph/last" ∧ r.Body = some b ∧
      ((store.err ≠ none ∨ store.hosts = [] ∨
          (∀ h ∈ store.hosts, ¬ ((45 : Byte) ∈ h.Hostname ∧ (46 : Byte) ∉ h.Hostname))) →
        (getAgentAliveData w cfg store hostnames versions result).queries = none ∧
        b = utf8 "null" ∧ b ≠ utf8 "[]") ∧
      (isJsonArray b = true ↔
        (store.err = none ∧
          ∃ h ∈ store.hosts, (45 : Byte) ∈ h.Hostname ∧ (46 : Byte) ∉ h.Hostname)) := by
  have hsent := getAgentAliveData_sent w cfg store hostnames versions result
  rw [hu] at hsent
  rw [(getAgentAliveData_state w cfg store hostnames versions result).1]
  refine ⟨_, _, hsent, rfl, rfl, rfl, ?_, ?_⟩
  · intro hcase
    have hnil : (loopResult store hostnames versions).queries = none := by
      rw [loopResult_queries_none]
      rcases hcase with he | he | he
      · exact Or.inl he
      · exact Or.inr (by simp [he])
      · exact Or.inr ((filter_kept_nil_iff _).2 he)
    refine ⟨hnil, ?_, ?_⟩
    · simp only [hnil, Marshal]
    · simp only [hnil, Marshal]
      decide
  · rw [Marshal_isJsonArray, Ne, loopResult_queries_none, filter_kept_nil_iff]
    constructor
    · intro hn
      have h1 : store.err = none := by
        by_contra hc
        exact hn (Or.inl hc)
      refine ⟨h1, ?_⟩
      by_contra hc
      apply hn
      right
      intro h hh hk
      exact hc ⟨h, hh, hk⟩
    · rintro ⟨h1, h, hh, hk⟩ hn
      rcases hn with hn | hn
      · exact hn h1
      · exact hn h hh hk

/-- An instance of C10: a failed store query makes the posted body `null`. -/
theorem getAgentAliveData_posts_null_witness :
    sampleWorld.parseErr (sampleConfig.Query ++ utf8 "/graph/last") = none ∧
    ∃ r b, (getAgentAliveData sampleWorld sampleConfig failedStore none [] { errors := [] }).sent
        = some r ∧
      r.Method = utf8 "POST" ∧ r.URL = sampleConfig.Query ++ utf8 "/graph/last" ∧
      r.Body = some b ∧
      ((failedStore.err ≠ none ∨ failedStore.hosts = [] ∨
          (∀ h ∈ failedStore.hosts, ¬ ((45 : Byte) ∈ h.Hostname ∧ (46 : Byte) ∉ h.Hostname))) →
        (getAgentAliveData sampleWorld sampleConfig failedStore none [] { errors := [] }).queries
          = none ∧
        b = utf8 "null" ∧ b ≠ utf8 "[]") ∧
      (isJsonArray b = true ↔
        (failedStore.err = none ∧
          ∃ h ∈ failedStore.hosts, (45 : Byte) ∈ h.Hostname ∧ (46 : Byte) ∉ h.Hostname)) :=
  ⟨rfl, getAgentAliveData_posts_null sampleWorld sampleConfig failedStore none [] { errors := [] } rfl⟩

theorem mem_setErrorIf (e : GoString) (x : Option GoString) (r : ResultMap)
    (h : e ∈ r.errors) : e ∈ (setErrorIf x r).errors := by
  cases x with
  | none => exact h
  | some m => simp [setErrorIf, setError, h]

theorem mem_setErrorIf_self (e : GoString) (r : ResultMap) :
    e ∈ (setErrorIf (some e) r).errors := by
  simp [setErrorIf, setError]

/-- The outcome of `getAgentAliveData` once the request `r` it sent is known. -/
theorem getAgentAliveData_of_sent (w : World) (cfg : ApiConfig) (store : QueryRowsResult)
    (hostnames : Slice GoString) (versions : StringMap) (result : ResultMap) (r : OutRequest)
    (hsent : (getAgentAliveData w cfg store hostnames versions result).sent = some r) :
    (getAgentAliveData w cfg store hostnames versions result).ret
        = (w.Do r).resp.map (fun resp => (w.Unmarshal resp.Body).1) ∧
    (∀ e, (store.err = some e ∨ (w.Do r).err = some e) →
      e ∈ (getAgentAliveData w cfg store hostnames versions result).result.errors) := by
  rw [getAgentAliveData_unfold] at hsent ⊢
  cases hp : w.parseErr (cfg.Query ++ utf8 "/graph/last") with
  | some e => simp [hp] at hsent
  | none =>
    simp only [hp] at hsent ⊢
    split at hsent <;> simp only [Option.some.injEq] at hsent <;> subst hsent
    · rename_i hnone
      simp only [hnone]
      constructor
      · rfl
      · intro e he
        rcases he with he | he
        · rw [he]
          exact mem_setErrorIf _ _ _ (mem_setErrorIf _ _ _ (mem_setErrorIf_self _ _))
        · rw [he]
          exact mem_setErrorIf_self _ _
    · rename_i resp hsome
      simp only [hsome]
      constructor
      · rfl
      · intro e he
        rcases he with he | he
        · rw [he]
          exact mem_setErrorIf _ _ _
            (mem_setErrorIf _ _ _ (mem_setErrorIf _ _ _ (mem_setErrorIf_self _ _)))
        · rw [he]
          exact mem_setErrorIf _ _ _ (mem_setErrorIf_self _ _)

/-- Whenever the request is built and `client.Do` returns no response,
`getAgentAliveData` records the error of the call and ends in a panic. -/
theorem getAgentAliveData_no_response (w : World) (cfg : ApiConfig) (store : QueryRowsResult)
    (hostnames : Slice GoString) (versions : StringMap) (result : ResultMap) (r : OutRequest)
    (hsent : (getAgentAliveData w cfg store hostnames versions result).sent = some r)
    (hresp : (w.Do r).resp = none) :
    (getAgentAliveData w cfg store hostnames versions result).ret = none ∧
    ∀ e, (w.Do r).err = some e →
      e ∈ (getAgentAliveData w cfg store hostnames versions result).result.errors := by
  have h := getAgentAliveData_of_sent w cfg store hostnames versions result r hsent
  refine ⟨?_, fun e he => h.2 e (Or.inr he)⟩
  rw [h.1, hresp]
  rfl

/-- Whenever the store query fails and the downstream call yields a response,
`getAgentAliveData` records the store error, adds no host to the batch, to the
host names or to the versions map, and returns the decoded list. -/
theorem getAgentAliveData_store_failure (w : World) (cfg : ApiConfig) (store : QueryRowsResult)
    (hostnames : Slice GoString) (versions : StringMap) (result : ResultMap) (e : GoString)
    (he : store.err = some e) (r : OutRequest)
    (hsent : (getAgentAliveData w cfg store hostnames versions result).sent = some r)
    (resp : Response) (hresp : (w.Do r).resp = some resp) :
    e ∈ (getAgentAliveData w cfg store hostnames versions result).result.errors ∧
    (getAgentAliveData w cfg store hostnames versions result).queries = none ∧
    (getAgentAliveData w cfg store hostnames versions result).versions = versions ∧
    (getAgentAliveData w cfg store hostnames versions result).hostnames = hostnames ∧
    (getAgentAliveData w cfg store hostnames versions result).ret
      = some (w.Unmarshal resp.Body).1 := by
  have hst := getAgentAliveData_state w cfg store hostnames versions result
  have hl : loopResult store hostnames versions
      = { hostnames := hostnames, versions := versions, queries := none } := by
    simp [loopResult, he]
  have h := getAgentAliveData_of_sent w cfg store hostnames versions result r hsent
  rw [hst.1, hst.2.1, hst.2.2, hl, h.1, hresp]
  exact ⟨h.2 e (Or.inl he), rfl, rfl, rfl, rfl⟩

/-- C8: evaluated on a run whose network call returns no response (the store
query succeeded), `getAgentAliveData` records the error by `setError` and then
stops in a panic on `resp.Body`: no list is returned. -/
theorem getAgentAliveData_network_failure_panics :
    (getAgentAliveData downWorld sampleConfig sampleStore none [] { errors := [] }).result.errors
      = [utf8 "connection refused"] ∧
    (getAgentAliveData downWorld sampleConfig sampleStore none [] { errors := [] }).ret = none := by
  decide

/-- C9: evaluated on a run in which the store query fails and the network call
returns no response, `getAgentAliveData` records the store error first, adds
no host to the batch or to the versions map, and then stops in a panic on
`resp.Body` instead of returning a list. -/
theorem getAgentAliveData_store_failure_then_panic :
    (getAgentAliveData downWorld sampleConfig failedStore none [] { errors := [] }).result.errors
      = [utf8 "dial tcp: connection refused", utf8 "connection refused"] ∧
    (getAgentAliveData downWorld sampleConfig failedStore none [] { errors := [] }).queries = none ∧
    (getAgentAliveData downWorld sampleConfig failedStore none [] { errors := [] }).versions = [] ∧
    (getAgentAliveData downWorld sampleConfig failedStore none [] { errors := [] }).ret = none := by
  decide

/-! ### The forwarders -/

theorem postByJson_unfold (w : World) (rw : ResponseWriter) (req : Request) (url : GoString) :
    postByJson w rw req url
      = match w.parseErr url with
        | some e => { sent := none, rw := rw, log := [errorLine e], panicked := true }
        | none =>
          relay rw
            (some { Method := utf8 "POST", URL := url,
                    Header := [(utf8 "Content-Type", [utf8 "application/json"])],
                    Body := some req.Body })
            []
            (w.Do { Method := utf8 "POST", URL := url,
                    Header := [(utf8 "Content-Type", [utf8 "application/json"])],
                    Body := some req.Body }) := by
  unfold postByJson NewRequest relay
  cases hp : w.parseErr url with
  | some e => simp [hp, logErr]
  | none =>
    simp [hp, logErr, Buffer.new, Buffer.ReadFrom, Buffer.String, Buffer.unread, NewBuffer,
      toBytes, Header.Set]

theorem getRequest_unfold (w : World) (rw : ResponseWriter) (url : GoString) :
    getRequest w rw url
      = match w.parseErr url with
        | some e => { sent := none, rw := rw, log := [errorLine e], panicked := true }
        | none =>
          relay rw (some { Method := utf8 "GET", URL := url, Header := [], Body := none }) []
            (w.Do { Method := utf8 "GET", URL := url, Header := [], Body := none }) := by
  unfold getRequest NewRequest relay
  cases hp : w.parseErr url with
  | some e => simp [hp, logErr]
  | none =>
    simp [hp, logErr]

theorem postByForm_unfold (w : World) (rw : ResponseWriter) (req : Request) (url : GoString) :
    postByForm w rw req url
      = match w.parseErr url with
        | some e => { sent := none, rw := rw, log := [errorLine e], panicked := true }
        | none =>
          relay rw
            (some { Method := utf8 "POST", URL := url,
                    Header := [(utf8 "Content-Type", [utf8 "application/x-www-form-urlencoded"])],
                    Body := some (ParseForm req).Encode })
            []
            (w.Do { Method := utf8 "POST", URL := url,
                    Header := [(utf8 "Content-Type", [utf8 "application/x-www-form-urlencoded"])],
                    Body := some (ParseForm req).Encode }) := by
  unfold postByForm PostForm NewRequest relay
  cases hp : w.parseErr url with
  | some e => simp [hp, logErr]
  | none =>
    simp [hp, logErr, Buffer.unread, NewBuffer, Header.Set]

theorem relay_sent (rw : ResponseWriter) (sent : Option OutRequest) (log : List GoString)
    (r : DoResult) : (relay rw sent log r).sent = sent := by
  unfold relay
  cases r.resp <;> rfl

theorem relay_response (rw : ResponseWriter) (sent : Option OutRequest) (log : List GoString)
    (r : DoResult) (resp : Response) (hr : r.resp = some resp) :
    relay rw sent log r
      = { sent := sent,
          rw := (rw.SetHeader (utf8 "Content-Type") (utf8 "application/json; charset=UTF-8")).Write
            resp.Body,
          log := log ++ logErr r.err, panicked := false } := by
  unfold relay
  rw [hr]

/-- Every forwarder that handed a request to the client ends in `relay` on the
result of that request. -/
theorem forwarder_relay (w : World) (rw : ResponseWriter) (req : Request) (url : GoString)
    (o : Outcome)
    (ho : o = postByJson w rw req url ∨ o = getRequest w rw url ∨ o = postByForm w rw req url)
    (r : OutRequest) (hsent : o.sent = some r) :
    o = relay rw (some r) [] (w.Do r) := by
  rcases ho with ho | ho | ho
  · rw [postByJson_unfold] at ho
    cases hp : w.parseErr url with
    | some e => rw [hp] at ho; subst ho; simp at hsent
    | none =>
      rw [hp] at ho
      simp only [] at ho
      subst ho
      rw [relay_sent] at hsent
      cases hsent
      rfl
  · rw [getRequest_unfold] at ho
    cases hp : w.parseErr url with
    | some e => rw [hp] at ho; subst ho; simp at hsent
    | none =>
      rw [hp] at ho
      simp only [] at ho
      subst ho
      rw [relay_sent] at hsent
      cases hsent
      rfl
  · rw [postByForm_unfold] at ho
    cases hp : w.parseErr url with
    | some e => rw [hp] at ho; subst ho; simp at hsent
    | none =>
      rw [hp] at ho
      simp only [] at ho
      subst ho
      rw [relay_sent] at hsent
      cases hsent
      rfl

theorem fresh_relayed (body : List Byte) :
    ((ResponseWriter.fresh.SetHeader (utf8 "Content-Type")
        (utf8 "application/json; charset=UTF-8")).Write body)
      = { Header := [(utf8 "Content-Type", [utf8 "application/json; charset=UTF-8"])],
          Status := some 200, Body := body } := by
  simp [ResponseWriter.fresh, ResponseWriter.SetHeader, ResponseWriter.Write,
    ResponseWriter.WriteHeader, Header.Set]

theorem Header.Get_single (k v : GoString) : Header.Get [(k, [v])] k = v := by
  simp [Header.Get]

theorem serve_info (w : World) (cfg : ApiConfig) (rw : ResponseWriter) (req : Request)
    (hp : req.Path = utf8 "/api/info") : serve w cfg rw req = some (queryInfo w cfg rw req) := by
  have h : (utf8 "/api/info" == utf8 "/api/info") = true := by decide
  simp [serve, configApiRoutes, hp, h]

theorem serve_history (w : World) (cfg : ApiConfig) (rw : ResponseWriter) (req : Request)
    (hp : req.Path = utf8 "/api/history") :
    serve w cfg rw req = some (queryHistory w cfg rw req) := by
  have h1 : (utf8 "/api/info" == utf8 "/api/history") = false := by decide
  have h2 : (utf8 "/api/history" == utf8 "/api/history") = true := by decide
  simp [serve, configApiRoutes, hp, h1, h2]

theorem serve_endpoints (w : World) (cfg : ApiConfig) (rw : ResponseWriter) (req : Request)
    (hp : req.Path = utf8 "/api/endpoints") :
    serve w cfg rw req = some (dashboardEndpoints w cfg rw req) := by
  have h1 : (utf8 "/api/info" == utf8 "/api/endpoints") = false := by decide
  have h2 : (utf8 "/api/history" == utf8 "/api/endpoints") = false := by decide
  have h3 : (utf8 "/api/endpoints" == utf8 "/api/endpoints") = true := by decide
  simp [serve, configApiRoutes, hp, h1, h2, h3]

theorem serve_counters (w : World) (cfg : ApiConfig) (rw : ResponseWriter) (req : Request)
    (hp : req.Path = utf8 "/api/counters") :
    serve w cfg rw req = some (dashboardCounters w cfg rw req) := by
  have h1 : (utf8 "/api/info" == utf8 "/api/counters") = false := by decide
  have h2 : (utf8 "/api/history" == utf8 "/api/counters") = false := by decide
  have h3 : (utf8 "/api/endpoints" == utf8 "/api/counters") = false := by decide
  have h4 : (utf8 "/api/counters" == utf8 "/api/counters") = true := by decide
  simp [serve, configApiRoutes, hp, h1, h2, h3, h4]

theorem serve_chart (w : World) (cfg : ApiConfig) (rw : ResponseWriter) (req : Request)
    (hp : req.Path = utf8 "/api/chart") :
    serve w cfg rw req = some (dashboardChart w cfg rw req) := by
  have h1 : (utf8 "/api/info" == utf8 "/api/chart") = false := by decide
  have h2 : (utf8 "/api/history" == utf8 "/api/chart") = false := by decide
  have h3 : (utf8 "/api/endpoints" == utf8 "/api/chart") = false := by decide
  have h4 : (utf8 "/api/counters" == utf8 "/api/chart") = false := by decide
  have h5 : (utf8 "/api/chart" == utf8 "/api/chart") = true := by decide
  simp [serve, configApiRoutes, hp, h1, h2, h3, h4, h5]

theorem postByJson_sent (w : World) (rw : ResponseWriter) (req : Request) (url : GoString)
    (hu : w.parseErr url = none) :
    (postByJson w rw req url).sent
      = some { Method := utf8 "POST", URL := url,
               Header := [(utf8 "Content-Type", [utf8 "application/json"])],
               Body := some req.Body } := by
  rw [postByJson_unfold, hu]
  simp only [relay_sent]

theorem getRequest_sent (w : World) (rw : ResponseWriter) (url : GoString)
    (hu : w.parseErr url = none) :
    (getRequest w rw url).sent
      = some { Method := utf8 "GET", URL := url, Header := [], Body := none } := by
  rw [getRequest_unfold, hu]
  simp only [relay_sent]

theorem postByForm_sent (w : World) (rw : ResponseWriter) (req : Request) (url : GoString)
    (hu : w.parseErr url = none) :
    (postByForm w rw req url).sent
      = some { Method := utf8 "POST", URL := url,
               Header := [(utf8 "Content-Type", [utf8 "application/x-www-form-urlencoded"])],
               Body := some (ParseForm req).Encode } := by
  rw [postByForm_unfold, hu]
  simp only [relay_sent]

theorem postByJson_sent_some (w : World) (rw : ResponseWriter) (req : Request) (url : GoString)
    (r : OutRequest) (h : (postByJson w rw req url).sent = some r) :
    r = { Method := utf8 "POST", URL := url,
          Header := [(utf8 "Content-Type", [utf8 "application/json"])],
          Body := some req.Body } := by
  rw [postByJson_unfold] at h
  cases hp : w.parseErr url with
  | some e => simp [hp] at h
  | none =>
    simp only [hp, relay_sent, Option.some.injEq] at h
    exact h.symm

theorem getRequest_sent_some (w : World) (rw : ResponseWriter) (url : GoString)
    (r : OutRequest) (h : (getRequest w rw url).sent = some r) :
    r = { Method := utf8 "GET", URL := url, Header := [], Body := none } := by
  rw [getRequest_unfold] at h
  cases hp : w.parseErr url with
  | some e => simp [hp] at h
  | none =>
    simp only [hp, relay_sent, Option.some.injEq] at h
    exact h.symm

theorem postByForm_sent_some (w : World) (rw : ResponseWriter) (req : Request) (url : GoString)
    (r : OutRequest) (h : (postByForm w rw req url).sent = some r) :
    r = { Method := utf8 "POST", URL := url,
          Header := [(utf8 "Content-Type", [utf8 "application/x-www-form-urlencoded"])],
          Body := some (ParseForm req).Encode } := by
  rw [postByForm_unfold] at h
  cases hp : w.parseErr url with
  | some e => simp [hp] at h
  | none =>
    simp only [hp, relay_sent, Option.some.injEq] at h
    exact h.symm

/-- C3: for every inbound body and every target url, the request `postByJson`
hands to the client is a POST to that url whose body is the inbound body byte
for byte and whose `Content-Type` is `application/json`, and such a request is
built whenever `http.NewRequest` accepts the url; the conversion bytes to
string to bytes in between is the identity; and the body `{"foo":1}` on
`/api/info` goes out as a POST to `<query-base>/graph/info` with the body
`{"foo":1}`. -/
theorem postByJson_outbound (w : World) (rw : ResponseWriter) (req : Request) (url : GoString) :
    (∀ r, (postByJson w rw req url).sent = some r →
      r.Method = utf8 "POST" ∧ r.URL = url ∧ r.Body = some req.Body ∧
      Header.Get r.Header (utf8 "Content-Type") = utf8 "application/json") ∧
    (w.parseErr url = none → ∃ r, (postByJson w rw req url).sent = some r) ∧
    toBytes (Buffer.new.ReadFrom req.Body).String = req.Body ∧
    (NewBuffer (toBytes (Buffer.new.ReadFrom req.Body).String)).unread = req.Body ∧
    (∀ cfg : ApiConfig, w.parseErr (cfg.Query ++ utf8 "/graph/info") = none →
      req.Path = utf8 "/api/info" → req.Body = utf8 "\x7b\"foo\":1\x7d" →
      ∃ o r, serve w cfg rw req = some o ∧ o.sent = some r ∧ r.Method = utf8 "POST" ∧
        r.URL = cfg.Query ++ utf8 "/graph/info" ∧ r.Body = some (utf8 "\x7b\"foo\":1\x7d") ∧
        Header.Get r.Header (utf8 "Content-Type") = utf8 "application/json") := by
  refine ⟨?_, ?_, ?_, ?_, ?_⟩
  · intro r hr
    rw [postByJson_sent_some w rw req url r hr]
    exact ⟨rfl, rfl, rfl, Header.Get_single _ _⟩
  · intro hu
    exact ⟨_, postByJson_sent w rw req url hu⟩
  · simp [toBytes, Buffer.new, Buffer.ReadFrom, Buffer.String, Buffer.unread]
  · simp [toBytes, Buffer.new, Buffer.ReadFrom, Buffer.String, Buffer.unread, NewBuffer]
  · intro cfg hu hpath hbody
    refine ⟨_, { Method := utf8 "POST", URL := cfg.Query ++ utf8 "/graph/info",
                 Header := [(utf8 "Content-Type", [utf8 "application/json"])],
                 Body := some req.Body },
      serve_info w cfg rw req hpath, postByJson_sent w rw req _ hu, rfl, rfl, ?_,
      Header.Get_single _ _⟩
    show some req.Body = _
    rw [hbody]

/-- An instance of C3: the body `{"foo":1}` posted to `/api/info`. -/
theorem postByJson_outbound_witness :
    sampleWorld.parseErr (sampleConfig.Query ++ utf8 "/graph/info") = none ∧
    ∃ o r, serve sampleWorld sampleConfig ResponseWriter.fresh sampleRequest = some o ∧
      o.sent = some r ∧ r.Method = utf8 "POST" ∧
      r.URL = sampleConfig.Query ++ utf8 "/graph/info" ∧ r.Body = some (utf8 "\x7b\"foo\":1\x7d") ∧
      Header.Get r.Header (utf8 "Content-Type") = utf8 "application/json" :=
  ⟨rfl, (postByJson_outbound sampleWorld ResponseWriter.fresh sampleRequest
      (utf8 "http://query:9966/graph/info")).2.2.2.2 sampleConfig rfl rfl rfl⟩

/-- C5: for every configuration and every inbound request, each route sends
what the route table says, and sends it whenever `http.NewRequest` accepts the
target: `/api/info` a POST to `query-base ++ "/graph/info"`, `/api/history` a
POST to `query-base ++ "/graph/history"`, `/api/counters` a POST to
`dashboard-base ++ "/api/counters"`, `/api/chart` a POST to
`dashboard-base ++ "/chart"`, and `/api/endpoints` a GET without body to
`dashboard-base ++` the request URI of the inbound request, which is its
encoded path followed by `?` and its raw query. -/
theorem routes_outbound (w : World) (cfg : ApiConfig) (rw : ResponseWriter) (req : Request) :
    (req.Path = utf8 "/api/info" →
      ∃ o, serve w cfg rw req = some o ∧
        (∀ r, o.sent = some r → r.Method = utf8 "POST" ∧ r.URL = cfg.Query ++ utf8 "/graph/info") ∧
        (w.parseErr (cfg.Query ++ utf8 "/graph/info") = none → ∃ r, o.sent = some r)) ∧
    (req.Path = utf8 "/api/history" →
      ∃ o, serve w cfg rw req = some o ∧
        (∀ r, o.sent = some r →
          r.Method = utf8 "POST" ∧ r.URL = cfg.Query ++ utf8 "/graph/history") ∧
        (w.parseErr (cfg.Query ++ utf8 "/graph/history") = none → ∃ r, o.sent = some r)) ∧
    (req.Path = utf8 "/api/counters" →
      ∃ o, serve w cfg rw req = some o ∧
        (∀ r, o.sent = some r →
          r.Method = utf8 "POST" ∧ r.URL = cfg.Dashboard ++ utf8 "/api/counters") ∧
        (w.parseErr (cfg.Dashboard ++ utf8 "/api/counters") = none → ∃ r, o.sent = some r)) ∧
    (req.Path = utf8 "/api/chart" →
      ∃ o, serve w cfg rw req = some o ∧
        (∀ r, o.sent = some r → r.Method = utf8 "POST" ∧ r.URL = cfg.Dashboard ++ utf8 "/chart") ∧
        (w.parseErr (cfg.Dashboard ++ utf8 "/chart") = none → ∃ r, o.sent = some r)) ∧
    (req.Path = utf8 "/api/endpoints" →
      ∃ o, serve w cfg rw req = some o ∧
        (∀ r, o.sent = some r →
          r.Method = utf8 "GET" ∧ r.Body = none ∧ r.URL = cfg.Dashboard ++ req.URL.RequestURI) ∧
        (w.parseErr (cfg.Dashboard ++ req.URL.RequestURI) = none → ∃ r, o.sent = some r)) ∧
    (req.URL.Opaque = [] → req.URL.EscapedPath ≠ [] →
      req.URL.RequestURI
        = req.URL.EscapedPath ++
            (if req.URL.ForceQuery = true ∨ req.URL.RawQuery ≠ [] then utf8 "?" ++ req.URL.RawQuery
             else [])) := by
  refine ⟨?_, ?_, ?_, ?_, ?_, ?_⟩
  · intro hp
    refine ⟨_, serve_info w cfg rw req hp, ?_, fun hu => ⟨_, postByJson_sent w rw req _ hu⟩⟩
    intro r hr
    rw [postByJson_sent_some w rw req _ r hr]
    exact ⟨rfl, rfl⟩
  · intro hp
    refine ⟨_, serve_history w cfg rw req hp, ?_, fun hu => ⟨_, postByJson_sent w rw req _ hu⟩⟩
    intro r hr
    rw [postByJson_sent_some w rw req _ r hr]
    exact ⟨rfl, rfl⟩
  · intro hp
    refine ⟨_, serve_counters w cfg rw req hp, ?_, fun hu => ⟨_, postByForm_sent w rw req _ hu⟩⟩
    intro r hr
    rw [postByForm_sent_some w rw req _ r hr]
    exact ⟨rfl, rfl⟩
  · intro hp
    refine ⟨_, serve_chart w cfg rw req hp, ?_, fun hu => ⟨_, postByForm_sent w rw req _ hu⟩⟩
    intro r hr
    rw [postByForm_sent_some w rw req _ r hr]
    exact ⟨rfl, rfl⟩
  · intro hp
    refine ⟨_, serve_endpoints w cfg rw req hp, ?_, fun hu => ⟨_, getRequest_sent w rw _ hu⟩⟩
    intro r hr
    rw [getRequest_sent_some w rw _ r hr]
    exact ⟨rfl, rfl, rfl⟩
  · intro ho hpath
    unfold URL.RequestURI
    by_cases hq : req.URL.ForceQuery = true ∨ req.URL.RawQuery ≠ []
    · have : (req.URL.ForceQuery || req.URL.RawQuery != []) = true := by
        rcases hq with h | h
        · simp [h]
        · simp [h]
      simp [ho, hpath, hq, this]
    · have : (req.URL.ForceQuery || req.URL.RawQuery != []) = false := by
        simp only [not_or, not_not, Bool.not_eq_true] at hq
        simp [hq.1, hq.2]
      simp [ho, hpath, hq, this]

/-- An instance of C5: `GET /api/endpoints?q=web&limit=10` goes out as a GET
to the dashboard base followed by the same path and query. -/
theorem routes_outbound_witness :
    sampleGet.Path = utf8 "/api/endpoints" ∧
    (∃ o, serve sampleWorld sampleConfig ResponseWriter.fresh sampleGet = some o ∧
      (∀ r, o.sent = some r →
        r.Method = utf8 "GET" ∧ r.Body = none ∧
        r.URL = sampleConfig.Dashboard ++ sampleGet.URL.RequestURI) ∧
      (sampleWorld.parseErr (sampleConfig.Dashboard ++ sampleGet.URL.RequestURI) = none →
        ∃ r, o.sent = some r)) ∧
    sampleWorld.parseErr (sampleConfig.Dashboard ++ sampleGet.URL.RequestURI) = none ∧
    sampleConfig.Dashboard ++ sampleGet.URL.RequestURI
      = utf8 "http://dash:8081/api/endpoints?q=web&limit=10" :=
  ⟨rfl,
    (routes_outbound sampleWorld sampleConfig ResponseWriter.fresh sampleGet).2.2.2.2.1 rfl,
    rfl, by decide⟩

/-- Every forwarder hands a request to the client whenever `http.NewRequest`
accepts the target url. -/
theorem forwarder_sends (w : World) (rw : ResponseWriter) (req : Request) (url : GoString)
    (o : Outcome)
    (ho : o = postByJson w rw req url ∨ o = getRequest w rw url ∨ o = postByForm w rw req url)
    (hu : w.parseErr url = none) : ∃ r, o.sent = some r := by
  rcases ho with ho | ho | ho
  · exact ⟨_, ho ▸ postByJson_sent w rw req url hu⟩
  · exact ⟨_, ho ▸ getRequest_sent w rw url hu⟩
  · exact ⟨_, ho ▸ postByForm_sent w rw req url hu⟩

/-- C6: in each of the three forwarding modes, for every response the backend
gives to the request sent, whatever headers it carries, the response written
to the caller has the backend's body as its body and the `Content-Type`
`application/json; charset=UTF-8`; and the forwarder does send a request, and
relays the response to it in this way, whenever `http.NewRequest` accepts the
target url. -/
theorem forward_response (w : World) (req : Request) (url : GoString) (o : Outcome)
    (ho : o = postByJson w ResponseWriter.fresh req url ∨ o = getRequest w ResponseWriter.fresh url ∨
      o = postByForm w ResponseWriter.fresh req url) :
    (∀ r resp, o.sent = some r → (w.Do r).resp = some resp →
      o.panicked = false ∧ o.rw.Body = resp.Body ∧
      Header.Get o.rw.Header (utf8 "Content-Type") = utf8 "application/json; charset=UTF-8") ∧
    (w.parseErr url = none →
      ∃ r, o.sent = some r ∧
        ∀ resp, (w.Do r).resp = some resp →
          o.panicked = false ∧ o.rw.Body = resp.Body ∧
          Header.Get o.rw.Header (utf8 "Content-Type")
            = utf8 "application/json; charset=UTF-8") := by
  have key : ∀ r resp, o.sent = some r → (w.Do r).resp = some resp →
      o.panicked = false ∧ o.rw.Body = resp.Body ∧
      Header.Get o.rw.Header (utf8 "Content-Type") = utf8 "application/json; charset=UTF-8" := by
    intro r resp hsent hresp
    rw [forwarder_relay w _ req url o ho r hsent, relay_response _ _ _ _ resp hresp, fresh_relayed]
    exact ⟨rfl, rfl, Header.Get_single _ _⟩
  refine ⟨key, ?_⟩
  intro hu
  obtain ⟨r, hr⟩ := forwarder_sends w _ req url o ho hu
  exact ⟨r, hr, fun resp hresp => key r resp hr hresp⟩

/-- An instance of C6: a backend answering with `text/html`. -/
theorem forward_response_witness :
    sampleWorld.parseErr (utf8 "http://dash:8081/api/endpoints") = none ∧
    (sampleWorld.Do { Method := utf8 "GET", URL := utf8 "http://dash:8081/api/endpoints",
                      Header := [], Body := none }).resp
      = some { StatusCode := 404, Header := [(utf8 "Content-Type", [utf8 "text/html"])],
               Body := utf8 "[]" } ∧
    (∃ r, (getRequest sampleWorld ResponseWriter.fresh
          (utf8 "http://dash:8081/api/endpoints")).sent = some r ∧
      ∀ resp, (sampleWorld.Do r).resp = some resp →
        (getRequest sampleWorld ResponseWriter.fresh
            (utf8 "http://dash:8081/api/endpoints")).panicked = false ∧
        (getRequest sampleWorld ResponseWriter.fresh
            (utf8 "http://dash:8081/api/endpoints")).rw.Body = resp.Body ∧
        Header.Get
            (getRequest sampleWorld ResponseWriter.fresh
              (utf8 "http://dash:8081/api/endpoints")).rw.Header
            (utf8 "Content-Type")
          = utf8 "application/json; charset=UTF-8") ∧
    (getRequest sampleWorld ResponseWriter.fresh (utf8 "http://dash:8081/api/endpoints")).rw.Body
      = utf8 "[]" ∧
    Header.Get
        (getRequest sampleWorld ResponseWriter.fresh (utf8 "http://dash:8081/api/endpoints")).rw.Header
        (utf8 "Content-Type")
      = utf8 "application/json; charset=UTF-8" :=
  ⟨rfl, rfl,
    (forward_response sampleWorld sampleGet (utf8 "http://dash:8081/api/endpoints") _
      (Or.inr (Or.inl rfl))).2 rfl,
    ((forward_response sampleWorld sampleGet (utf8 "http://dash:8081/api/endpoints") _
      (Or.inr (Or.inl rfl))).1
      { Method := utf8 "GET", URL := utf8 "http://dash:8081/api/endpoints", Header := [], Body := none }
      { StatusCode := 404, Header := [(utf8 "Content-Type", [utf8 "text/html"])], Body := utf8 "[]" }
      (by decide) rfl).2⟩

/-- C7 fails as stated: a backend answers `404` and the status `postByJson`
writes to the caller is `200`. -/
theorem status_not_relayed :
    (sampleWorld.Do { Method := utf8 "POST", URL := utf8 "http://query:9966/graph/info",
                      Header := [(utf8 "Content-Type", [utf8 "application/json"])],
                      Body := some (utf8 "\x7b\"foo\":1\x7d") }).resp.map (fun p => p.StatusCode)
      = some 404 ∧
    (postByJson sampleWorld ResponseWriter.fresh sampleRequest
        (utf8 "http://query:9966/graph/info")).sent
      = some { Method := utf8 "POST", URL := utf8 "http://query:9966/graph/info",
               Header := [(utf8 "Content-Type", [utf8 "application/json"])],
               Body := some (utf8 "\x7b\"foo\":1\x7d") } ∧
    (postByJson sampleWorld ResponseWriter.fresh sampleRequest
        (utf8 "http://query:9966/graph/info")).rw.Status = some 200 ∧
    (postByJson sampleWorld ResponseWriter.fresh sampleRequest
        (utf8 "http://query:9966/graph/info")).rw.Status ≠ some 404 := by
  decide

/-- C7 as amended: in each of the three forwarding modes, for every response
the backend gives, the status written to the caller is `200`, the status the
first `Write` implies, whatever the status code of the backend; and the
forwarder does send a request, and answers the response to it with `200`,
whenever `http.NewRequest` accepts the target url. -/
theorem forward_status_ok (w : World) (req : Request) (url : GoString) (o : Outcome)
    (ho : o = postByJson w ResponseWriter.fresh req url ∨ o = getRequest w ResponseWriter.fresh url ∨
      o = postByForm w ResponseWriter.fresh req url) :
    (∀ r resp, o.sent = some r → (w.Do r).resp = some resp →
      o.panicked = false ∧ o.rw.Status = some 200) ∧
    (w.parseErr url = none →
      ∃ r, o.sent = some r ∧
        ∀ resp, (w.Do r).resp = some resp → o.panicked = false ∧ o.rw.Status = some 200) := by
  have key : ∀ r resp, o.sent = some r → (w.Do r).resp = some resp →
      o.panicked = false ∧ o.rw.Status = some 200 := by
    intro r resp hsent hresp
    rw [forwarder_relay w _ req url o ho r hsent, relay_response _ _ _ _ resp hresp, fresh_relayed]
    exact ⟨rfl, rfl⟩
  refine ⟨key, ?_⟩
  intro hu
  obtain ⟨r, hr⟩ := forwarder_sends w _ req url o ho hu
  exact ⟨r, hr, fun resp hresp => key r resp hr hresp⟩

/-- An instance of the amended C7: a backend answering `404` through `postByForm`. -/
theorem forward_status_ok_witness :
    sampleWorld.parseErr (utf8 "http://dash:8081/chart") = none ∧
    (sampleWorld.Do { Method := utf8 "POST", URL := utf8 "http://dash:8081/chart",
                      Header := [(utf8 "Content-Type", [utf8 "application/x-www-form-urlencoded"])],
                      Body := some (utf8 "a=2&b=1") }).resp.map (fun p => p.StatusCode) = some 404 ∧
    (∃ r, (postByForm sampleWorld ResponseWriter.fresh sampleForm
          (utf8 "http://dash:8081/chart")).sent = some r ∧
      ∀ resp, (sampleWorld.Do r).resp = some resp →
        (postByForm sampleWorld ResponseWriter.fresh sampleForm
            (utf8 "http://dash:8081/chart")).panicked = false ∧
        (postByForm sampleWorld ResponseWriter.fresh sampleForm
            (utf8 "http://dash:8081/chart")).rw.Status = some 200) ∧
    (postByForm sampleWorld ResponseWriter.fresh sampleForm (utf8 "http://dash:8081/chart")).rw.Status
      = some 200 :=
  ⟨rfl, rfl,
    (forward_status_ok sampleWorld sampleForm (utf8 "http://dash:8081/chart") _
      (Or.inr (Or.inr rfl))).2 rfl,
    ((forward_status_ok sampleWorld sampleForm (utf8 "http://dash:8081/chart") _
      (Or.inr (Or.inr rfl))).1
      { Method := utf8 "POST", URL := utf8 "http://dash:8081/chart",
        Header := [(utf8 "Content-Type", [utf8 "application/x-www-form-urlencoded"])],
        Body := some (utf8 "a=2&b=1") }
      { StatusCode := 404, Header := [(utf8 "Content-Type", [utf8 "text/html"])], Body := utf8 "[]" }
      (by decide) rfl).2⟩

/-! ### Query escaping -/

set_option maxRecDepth 100000 in
theorem unhex_upperhex (c : Byte) :
    (Fin.ofNat ((unhex (upperhex (c.val >>> 4)) <<< 4) ||| unhex (upperhex (c.val &&& 15))) : Byte) = c := by
  revert c
  decide

set_option maxRecDepth 100000 in
theorem ishex_upperhex (c : Byte) :
    ishex (upperhex (c.val >>> 4)) = true ∧ ishex (upperhex (c.val &&& 15)) = true := by
  revert c
  decide

theorem upperhex_plain : ∀ n, n < 16 →
    upperhex n ≠ 38 ∧ upperhex n ≠ 59 ∧ upperhex n ≠ 61 := by
  decide

theorem shouldEscape_special :
    shouldEscape 37 = true ∧ shouldEscape 43 = true ∧ shouldEscape 32 = true ∧
    shouldEscape 38 = true ∧ shouldEscape 59 = true ∧ shouldEscape 61 = true := by
  decide

theorem byte_shift_lt (c : Byte) : c.val >>> 4 < 16 ∧ c.val &&& 15 < 16 := by
  constructor
  · rw [Nat.shiftRight_eq_div_pow]
    have := c.isLt
    omega
  · exact Nat.lt_of_le_of_lt Nat.and_le_right (by decide)

/-- The bytes `escapeByte` writes are never `&`, `;` or `=`. -/
theorem escapeByte_plain (c : Byte) : ∀ b ∈ escapeByte c, b ≠ 38 ∧ b ≠ 59 ∧ b ≠ 61 := by
  intro b hb
  unfold escapeByte at hb
  split at hb
  · simp only [List.mem_singleton] at hb
    subst hb
    decide
  · split at hb
    · simp only [List.mem_cons, List.mem_singleton, List.not_mem_nil, or_false] at hb
      rcases hb with rfl | rfl | rfl
      · decide
      · exact upperhex_plain _ (byte_shift_lt c).1
      · exact upperhex_plain _ (byte_shift_lt c).2
    · rename_i hs
      simp only [List.mem_singleton] at hb
      subst hb
      have h := shouldEscape_special
      refine ⟨?_, ?_, ?_⟩ <;> rintro rfl <;> simp_all

theorem QueryEscape_plain (s : GoString) : ∀ b ∈ QueryEscape s, b ≠ 38 ∧ b ≠ 59 ∧ b ≠ 61 := by
  intro b hb
  simp only [QueryEscape, List.mem_flatMap] at hb
  obtain ⟨c, _, hc⟩ := hb
  exact escapeByte_plain c b hc

theorem QueryUnescape_cons (c : Byte) (rest : GoString) :
    QueryUnescape (c :: rest)
      = if c = 37 then
          match rest with
          | a :: b :: rest2 =>
            if ishex a && ishex b then
              (QueryUnescape rest2).map (fun t => Fin.ofNat ((unhex a <<< 4) ||| unhex b) :: t)
            else none
          | _ => none
        else if c = 43 then (QueryUnescape rest).map (fun t => (32 : Byte) :: t)
        else (QueryUnescape rest).map (fun t => c :: t) := by
  cases rest with
  | nil => simp [QueryUnescape]
  | cons a rest1 =>
    cases rest1 with
    | nil => simp [QueryUnescape]
    | cons b rest2 => simp [QueryUnescape]

theorem QueryUnescape_escapeByte (c : Byte) (t : GoString) :
    QueryUnescape (escapeByte c ++ t) = (QueryUnescape t).map (fun u => c :: u) := by
  unfold escapeByte
  split
  · rename_i h
    subst h
    have h1 : ¬ (43 : Byte) = 37 := by decide
    rw [List.singleton_append, QueryUnescape_cons, if_neg h1, if_pos rfl]
  · split
    · have h1 := ishex_upperhex c
      have h2 := unhex_upperhex c
      simp only [List.cons_append, List.nil_append]
      rw [QueryUnescape_cons, if_pos rfl]
      simp only [h1.1, h1.2, h2, Bool.and_self, if_true]
    · rename_i h32 hs
      have h := shouldEscape_special
      have h37 : c ≠ 37 := by rintro rfl; simp_all
      have h43 : c ≠ 43 := by rintro rfl; simp_all
      rw [List.singleton_append, QueryUnescape_cons, if_neg h37, if_neg h43]

/-- Unescaping undoes escaping: `QueryUnescape (QueryEscape s) = s`. -/
theorem QueryUnescape_QueryEscape (s : GoString) : QueryUnescape (QueryEscape s) = some s := by
  induction s with
  | nil => simp [QueryEscape, QueryUnescape]
  | cons c t ih =>
    have : QueryEscape (c :: t) = escapeByte c ++ QueryEscape t := by
      simp [QueryEscape]
    rw [this, QueryUnescape_escapeByte, ih]
    rfl

/-! ### `ParseQuery` after `Values.Encode` -/

theorem cutAt_append (p : Byte → Bool) (a : GoString) (c : Byte) (rest : GoString)
    (ha : ∀ b ∈ a, p b = false) (hc : p c = true) :
    cutAt p (a ++ c :: rest) = (a, some rest) := by
  induction a with
  | nil => simp [cutAt, hc]
  | cons x xs ih =>
    have hx : p x = false := ha x (List.mem_cons_self _ _)
    have hxs : ∀ b ∈ xs, p b = false := fun b hb => ha b (List.mem_cons_of_mem _ hb)
    simp [cutAt, hx, ih hxs]

theorem cutAt_none (p : Byte → Bool) (a : GoString) (ha : ∀ b ∈ a, p b = false) :
    cutAt p a = (a, none) := by
  induction a with
  | nil => simp [cutAt]
  | cons x xs ih =>
    have hx : p x = false := ha x (List.mem_cons_self _ _)
    have hxs : ∀ b ∈ xs, p b = false := fun b hb => ha b (List.mem_cons_of_mem _ hb)
    simp [cutAt, hx, ih hxs]

theorem encodePair_ne_nil (p : GoString × GoString) : encodePair p ≠ [] := by
  simp [encodePair]

theorem encodePair_noSep (p : GoString × GoString) : ∀ b ∈ encodePair p, isQuerySep b = false := by
  intro b hb
  simp only [encodePair, List.mem_append, List.mem_singleton] at hb
  rcases hb with (hb | hb) | hb
  · have := QueryEscape_plain _ b hb
    simp [isQuerySep, this.1, this.2.1]
  · subst hb
    decide
  · have := QueryEscape_plain _ b hb
    simp [isQuerySep, this.1, this.2.1]

theorem parseSegment_encodePair (st : Values × Bool) (p : GoString × GoString) :
    parseSegment st (encodePair p) = (Values.add st.1 p.1 p.2, st.2) := by
  have hne := encodePair_ne_nil p
  have hcut : cutAt (fun c => decide (c = 61)) (encodePair p)
      = (QueryEscape p.1, some (QueryEscape p.2)) := by
    unfold encodePair
    rw [List.append_assoc]
    apply cutAt_append
    · intro b hb
      have := QueryEscape_plain _ b hb
      simp [this.2.2]
    · simp
  unfold parseSegment
  rw [if_neg hne]
  simp only [hcut, QueryUnescape_QueryEscape]

theorem encodeLoop_nonempty (buf : GoString) (hb : buf ≠ []) (ps : List (GoString × GoString)) :
    encodeLoop buf ps = buf ++ ps.flatMap (fun p => 38 :: encodePair p) := by
  induction ps generalizing buf with
  | nil => simp [encodeLoop]
  | cons p rest ih =>
    obtain ⟨k, v⟩ := p
    have hlen : buf.length > 0 := List.length_pos.2 hb
    simp only [encodeLoop, hlen, if_true]
    rw [ih]
    · simp [encodePair, List.append_assoc]
    · simp

theorem encodeLoop_nil (ps : List (GoString × GoString)) : encodeLoop [] ps = joinPairs ps := by
  cases ps with
  | nil => rfl
  | cons p rest =>
    obtain ⟨k, v⟩ := p
    simp only [encodeLoop, List.length_nil, gt_iff_lt, lt_self_iff_false, if_false,
      List.nil_append]
    rw [encodeLoop_nonempty]
    · simp [joinPairs, encodePair]
    · simp

theorem cutAt_rest_length (p : Byte → Bool) (q key rest : GoString)
    (h : cutAt p q = (key, some rest)) : rest.length < q.length := by
  induction q generalizing key with
  | nil => simp [cutAt] at h
  | cons c t ih =>
    unfold cutAt at h
    split at h
    · simp only [Prod.mk.injEq, Option.some.injEq] at h
      rw [← h.2]
      exact Nat.lt_succ_self _
    · simp only [Prod.mk.injEq] at h
      have := ih (cutAt p t).1 (Prod.ext rfl h.2)
      exact Nat.lt_succ_of_lt this

/-- The loop of `parseQuery` does not depend on the fuel once the fuel covers
the length of the query: `ParseQuery` runs the loop to its end. -/
theorem parseQueryLoop_fuel (n m : Nat) (st : Values × Bool) (query : GoString)
    (hn : query.length ≤ n) (hm : query.length ≤ m) :
    parseQueryLoop n st query = parseQueryLoop m st query := by
  induction n generalizing m st query with
  | zero =>
    have hq : query = [] := List.length_eq_zero.1 (Nat.le_zero.1 hn)
    subst hq
    cases m <;> simp [parseQueryLoop]
  | succ n ih =>
    cases m with
    | zero =>
      have hq : query = [] := List.length_eq_zero.1 (Nat.le_zero.1 hm)
      subst hq
      simp [parseQueryLoop]
    | succ m =>
      rw [parseQueryLoop, parseQueryLoop]
      split
      · rfl
      · split
        · rename_i key rest hcut
          have hlt := cutAt_rest_length _ _ _ _ hcut
          exact ih m _ rest (by omega) (by omega)
        · rfl

theorem parseQueryLoop_joined (rest : List (GoString × GoString)) (p : GoString × GoString)
    (st : Values × Bool) (fuel : Nat)
    (hf : (encodePair p ++ rest.flatMap (fun q => 38 :: encodePair q)).length ≤ fuel) :
    parseQueryLoop fuel st (encodePair p ++ rest.flatMap (fun q => 38 :: encodePair q))
      = (p :: rest).foldl (fun s q => parseSegment s (encodePair q)) st := by
  induction rest generalizing p st fuel with
  | nil =>
    have hne := encodePair_ne_nil p
    simp only [List.flatMap_nil, List.append_nil] at hf ⊢
    cases fuel with
    | zero =>
      have : (encodePair p).length = 0 := Nat.le_zero.1 hf
      exact absurd (List.length_eq_zero.1 this) hne
    | succ f =>
      rw [parseQueryLoop, if_neg hne, cutAt_none _ _ (encodePair_noSep p)]
      rfl
  | cons q rest ih =>
    have hq : (encodePair p ++ (q :: rest).flatMap (fun q => 38 :: encodePair q))
        = encodePair p ++ 38 :: (encodePair q ++ rest.flatMap (fun q => 38 :: encodePair q)) := by
      simp
    rw [hq] at hf ⊢
    have hne : encodePair p ++ 38 :: (encodePair q ++ rest.flatMap (fun q => 38 :: encodePair q)) ≠ [] := by
      simp
    cases fuel with
    | zero => simp at hf
    | succ f =>
      have hcut := cutAt_append isQuerySep (encodePair p) 38
        (encodePair q ++ rest.flatMap (fun q => 38 :: encodePair q)) (encodePair_noSep p) (by decide)
      rw [parseQueryLoop, if_neg hne, hcut]
      simp only []
      rw [ih]
      · rfl
      · simp only [List.length_append, List.length_cons] at hf ⊢
        omega

theorem foldl_parseSegment_encodePair (ps : List (GoString × GoString)) (st : Values × Bool) :
    ps.foldl (fun s q => parseSegment s (encodePair q)) st
      = (ps.foldl (fun m q => Values.add m q.1 q.2) st.1, st.2) := by
  induction ps generalizing st with
  | nil => rfl
  | cons p rest ih =>
    rw [List.foldl_cons, parseSegment_encodePair, ih]
    rfl

/-- Parsing the pairs joined by `&` adds them one by one, without error. -/
theorem ParseQuery_joinPairs (ps : List (GoString × GoString)) :
    ParseQuery (joinPairs ps) = (ps.foldl (fun m q => Values.add m q.1 q.2) [], false) := by
  cases ps with
  | nil => rfl
  | cons p rest =>
    unfold ParseQuery joinPairs
    rw [parseQueryLoop_joined rest p _ _ (le_refl _), foldl_parseSegment_encodePair]

theorem Values.get_add (m : Values) (k v k1 : GoString) :
    Values.get (Values.add m k v) k1 = if k = k1 then Values.get m k1 ++ [v] else Values.get m k1 := by
  induction m with
  | nil =>
    by_cases h : k = k1 <;> simp [Values.add, Values.get, h]
  | cons e rest ih =>
    obtain ⟨k0, vs⟩ := e
    by_cases h0 : k0 = k
    · subst h0
      by_cases h : k0 = k1 <;> simp [Values.add, Values.get, h]
    · by_cases h : k = k1
      · subst h
        simp [Values.add, Values.get, h0, ih]
      · by_cases h1 : k0 = k1
        · subst h1
          simp [Values.add, Values.get, h0, h]
        · simp [Values.add, Values.get, h0, h, h1, ih]

theorem Values.get_foldl_add (ps : List (GoString × GoString)) (m : Values) (k : GoString) :
    Values.get (ps.foldl (fun m q => Values.add m q.1 q.2) m) k
      = Values.get m k ++ (ps.filter (fun q => q.1 = k)).map (fun q => q.2) := by
  induction ps generalizing m with
  | nil => simp
  | cons p rest ih =>
    rw [List.foldl_cons, ih, Values.get_add]
    by_cases h : p.1 = k <;> simp [h, List.filter]

theorem Values.get_nil_of_not_mem (m : Values) (k : GoString) (h : k ∉ m.map (fun p => p.1)) :
    Values.get m k = [] := by
  induction m with
  | nil => rfl
  | cons e rest ih =>
    obtain ⟨k0, vs⟩ := e
    simp only [List.map_cons, List.mem_cons, not_or] at h
    have h0 : ¬ k0 = k := fun e => h.1 e.symm
    simp [Values.get, h0, ih h.2]

theorem filter_pairs_not_mem (v : Values) (ks : List GoString) (k : GoString) (h : k ∉ ks) :
    ((ks.flatMap (fun k1 => (v.get k1).map (fun x => (k1, x)))).filter (fun q => q.1 = k)) = [] := by
  rw [List.filter_eq_nil_iff]
  intro q hq
  simp only [List.mem_flatMap, List.mem_map] at hq
  obtain ⟨k1, hk1, x, _, rfl⟩ := hq
  simp only [decide_eq_true_eq]
  rintro rfl
  exact h hk1

theorem filter_pairs_mem (v : Values) (ks : List GoString) (k : GoString) (hn : ks.Nodup)
    (h : k ∈ ks) :
    ((ks.flatMap (fun k1 => (v.get k1).map (fun x => (k1, x)))).filter (fun q => q.1 = k)).map
        (fun q => q.2) = v.get k := by
  induction ks with
  | nil => simp at h
  | cons k0 rest ih =>
    rw [List.nodup_cons] at hn
    rw [List.flatMap_cons, List.filter_append, List.map_append]
    by_cases h0 : k0 = k
    · subst h0
      rw [filter_pairs_not_mem v rest k0 hn.1]
      simp [List.filter_map, Function.comp]
    · have hk : k ∈ rest := by
        rcases List.mem_cons.1 h with e | e
        · exact absurd e.symm h0
        · exact e
      rw [ih hn.2 hk]
      have : ((v.get k0).map (fun x => (k0, x))).filter (fun q => q.1 = k) = [] := by
        rw [List.filter_eq_nil_iff]
        intro q hq
        simp only [List.mem_map] at hq
        obtain ⟨x, _, rfl⟩ := hq
        simpa using h0
      rw [this]
      rfl

theorem insertKey_perm (k : GoString) (l : List GoString) : (insertKey k l).Perm (k :: l) := by
  induction l with
  | nil => exact List.Perm.refl _
  | cons x xs ih =>
    unfold insertKey
    split
    · exact List.Perm.refl _
    · exact (List.Perm.cons x ih).trans (List.Perm.swap k x xs)

theorem sortStrings_perm (l : List GoString) : (sortStrings l).Perm l := by
  induction l with
  | nil => exact List.Perm.refl _
  | cons x xs ih =>
    show (insertKey x (sortStrings xs)).Perm (x :: xs)
    exact (insertKey_perm x _).trans (List.Perm.cons x ih)

/-- The pairs `Values.Encode` writes, in order. -/
theorem Values.Encode_eq (v : Values) :
    v.Encode = joinPairs ((sortStrings (v.map (fun p => p.1))).flatMap
      (fun k => (v.get k).map (fun x => (k, x)))) := by
  unfold Values.Encode
  exact encodeLoop_nil _

/-- Decoding what `Values.Encode` wrote gives back, for every key, the values
of that key in their order, and no error. -/
theorem ParseQuery_Encode (v : Values) (hn : (v.map (fun p => p.1)).Nodup) :
    (∀ k, Values.get (ParseQuery v.Encode).1 k = Values.get v k) ∧
    (ParseQuery v.Encode).2 = false := by
  rw [Values.Encode_eq, ParseQuery_joinPairs]
  refine ⟨?_, rfl⟩
  intro k
  simp only []
  rw [Values.get_foldl_add]
  have hperm := sortStrings_perm (v.map (fun p => p.1))
  by_cases hk : k ∈ v.map (fun p => p.1)
  · rw [filter_pairs_mem v _ k (hperm.nodup_iff.2 hn) (hperm.mem_iff.2 hk)]
    rfl
  · rw [filter_pairs_not_mem v _ k (fun h => hk (hperm.mem_iff.1 h)),
      Values.get_nil_of_not_mem v k hk]
    rfl

theorem Values.add_keys_nodup (m : Values) (k v : GoString) (hn : (m.map (fun p => p.1)).Nodup) :
    ((Values.add m k v).map (fun p => p.1)).Nodup ∧
    ∀ k1, k1 ∈ (Values.add m k v).map (fun p => p.1) → k1 = k ∨ k1 ∈ m.map (fun p => p.1) := by
  induction m with
  | nil => simp [Values.add]
  | cons e rest ih =>
    obtain ⟨k0, vs⟩ := e
    simp only [List.map_cons, List.nodup_cons] at hn
    by_cases h0 : k0 = k
    · subst h0
      simp only [Values.add, if_true, List.map_cons, List.nodup_cons]
      exact ⟨hn, fun k1 h => Or.inr h⟩
    · have ih1 := ih hn.2
      simp only [Values.add, h0, if_false, List.map_cons, List.nodup_cons, List.mem_cons]
      refine ⟨⟨?_, ih1.1⟩, ?_⟩
      · intro hmem
        rcases ih1.2 k0 hmem with e | e
        · exact h0 e
        · exact hn.1 e
      · intro k1 h
        rcases h with e | e
        · exact Or.inr (Or.inl e)
        · rcases ih1.2 k1 e with e1 | e1
          · exact Or.inl e1
          · exact Or.inr (Or.inr e1)

theorem parseSegment_keys_nodup (st : Values × Bool) (key : GoString)
    (hn : (st.1.map (fun p => p.1)).Nodup) :
    ((parseSegment st key).1.map (fun p => p.1)).Nodup := by
  unfold parseSegment
  split
  · exact hn
  · simp only []
    split <;> (try exact hn)
    split <;> (try exact hn)
    exact (Values.add_keys_nodup _ _ _ hn).1

theorem parseQueryLoop_keys_nodup (fuel : Nat) (st : Values × Bool) (query : GoString)
    (hn : (st.1.map (fun p => p.1)).Nodup) :
    ((parseQueryLoop fuel st query).1.map (fun p => p.1)).Nodup := by
  induction fuel generalizing st query with
  | zero => exact hn
  | succ f ih =>
    rw [parseQueryLoop]
    split
    · exact hn
    · split
      · exact ih _ _ (parseSegment_keys_nodup st _ hn)
      · exact parseSegment_keys_nodup st _ hn

theorem ParseQuery_keys_nodup (query : GoString) :
    ((ParseQuery query).1.map (fun p => p.1)).Nodup :=
  parseQueryLoop_keys_nodup _ _ _ List.nodup_nil

/-- The form values `ParseForm` leaves in `req.PostForm` for a form-encoded
POST whose body is within `maxFormSize`: those of `ParseQuery` on the body. -/
theorem ParseForm_form_post (req : Request) (hm : req.Method = utf8 "POST")
    (hct : req.MediaType = utf8 "application/x-www-form-urlencoded")
    (hlen : req.Body.length ≤ maxFormSize) :
    ParseForm req = (ParseQuery req.Body).1 := by
  have htake : req.Body.take (maxFormSize + 1) = req.Body :=
    List.take_of_length_le (Nat.le_succ_of_le hlen)
  have hnot : ¬ req.Body.length > maxFormSize := Nat.not_lt.2 hlen
  unfold ParseForm parsePostForm
  simp only [hm, hct, true_or, if_true, htake, hnot, if_false]

/-- C4 fails as stated: the form body `b=1&a=2` goes out as `a=2&b=1`. -/
theorem postByForm_reorders :
    sampleForm.Body = utf8 "b=1&a=2" ∧
    (postByForm sampleWorld ResponseWriter.fresh sampleForm
        (utf8 "http://dash:8081/api/counters")).sent
      = some { Method := utf8 "POST", URL := utf8 "http://dash:8081/api/counters",
               Header := [(utf8 "Content-Type", [utf8 "application/x-www-form-urlencoded"])],
               Body := some (utf8 "a=2&b=1") } ∧
    utf8 "a=2&b=1" ≠ sampleForm.Body := by
  decide

/-- C4 as amended: for every form-encoded POST whose body is within
`maxFormSize`, the body `postByForm` sends is the encoding (`Values.Encode`:
keys sorted, keys and values escaped anew) of the form values parsed from the
inbound body, and it parses back, without error, to the same values for every
key, in the same order. -/
theorem postByForm_reencodes (w : World) (rw : ResponseWriter) (req : Request) (url : GoString)
    (hu : w.parseErr url = none) (hm : req.Method = utf8 "POST")
    (hct : req.MediaType = utf8 "application/x-www-form-urlencoded")
    (hlen : req.Body.length ≤ maxFormSize) :
    ∃ r out, (postByForm w rw req url).sent = some r ∧ r.Method = utf8 "POST" ∧ r.URL = url ∧
      r.Body = some out ∧ out = (ParseQuery req.Body).1.Encode ∧
      (∀ k, Values.get (ParseQuery out).1 k = Values.get (ParseQuery req.Body).1 k) ∧
      (ParseQuery out).2 = false := by
  have h := ParseQuery_Encode (ParseQuery req.Body).1 (ParseQuery_keys_nodup req.Body)
  refine ⟨{ Method := utf8 "POST", URL := url,
            Header := [(utf8 "Content-Type", [utf8 "application/x-www-form-urlencoded"])],
            Body := some (ParseQuery req.Body).1.Encode }, _, ?_, rfl, rfl, rfl, rfl, h.1, h.2⟩
  rw [postByForm_sent w rw req url hu, ParseForm_form_post req hm hct hlen]

/-- An instance of the amended C4: the body `b=1&a=2`. -/
theorem postByForm_reencodes_witness :
    sampleWorld.parseErr (utf8 "http://dash:8081/api/counters") = none ∧
    sampleForm.Method = utf8 "POST" ∧
    sampleForm.MediaType = utf8 "application/x-www-form-urlencoded" ∧
    sampleForm.Body.length ≤ maxFormSize ∧
    ∃ r out, (postByForm sampleWorld ResponseWriter.fresh sampleForm
        (utf8 "http://dash:8081/api/counters")).sent = some r ∧
      r.Method = utf8 "POST" ∧ r.URL = utf8 "http://dash:8081/api/counters" ∧
      r.Body = some out ∧ out = (ParseQuery sampleForm.Body).1.Encode ∧
      (∀ k, Values.get (ParseQuery out).1 k = Values.get (ParseQuery sampleForm.Body).1 k) ∧
      (ParseQuery out).2 = false :=
  ⟨rfl, rfl, rfl, by decide,
    postByForm_reencodes sampleWorld ResponseWriter.fresh sampleForm
      (utf8 "http://dash:8081/api/counters") rfl rfl rfl (by decide)⟩

end Query
